import Mathlib

/-! OTA web update: `main/file_server.c` and `main/ota_server.c`.

A shallow embedding of the two HTTP upload handlers that stream a firmware image into the
next OTA partition, and of the server start-up guard.

Conventions of the embedding.

* C `int` / `esp_err_t` values are `Int`; `size_t` values and partition/handle identifiers are
  `Nat`. The loop is entered with `0 ≤ remaining ≤ 2^20` and a pass that subtracts runs only
  while `remaining > 0`, so `remaining` never wraps; `binary_file_length` could wrap only in
  a pass in which `httpd_req_recv` returned more than it was asked for, which would also
  overrun the scratch buffer.
* C strings are `List Char` without the terminating NUL; character buffers are `List Char`
  in which `'\x00'` is the NUL byte; byte buffers are `List Nat`.
* Calls into ESP-IDF are external. The calls a handler makes are recorded, in order, in a
  list of `Call`; what the calls return is supplied by an `Env`.
* `ESP_LOGE` / `ESP_LOGW` lines are recorded as `Call.log`; of the informational output only
  the final `Total Write binary data length` line is recorded (it is the one place where
  `binary_file_length` becomes visible). The progress `printf` is not modelled.
* Partition pointers returned by ESP-IDF are taken to be non-NULL identifiers, except
  `esp_ota_get_last_invalid_partition`, whose NULL result the code tests for.
-/

set_option maxRecDepth 100000

namespace OtaWebupdate

/-! ## Constants -/

/-- Value of `ESP_OK` in ESP-IDF `esp_err.h`. -/
def ESP_OK : Int := 0
/-- Value of `ESP_FAIL` in ESP-IDF `esp_err.h`. -/
def ESP_FAIL : Int := -1
/-- Value of `ESP_ERR_NO_MEM` in ESP-IDF `esp_err.h`. -/
def ESP_ERR_NO_MEM : Int := 0x101
/-- Value of `ESP_ERR_INVALID_ARG` in ESP-IDF `esp_err.h`. -/
def ESP_ERR_INVALID_ARG : Int := 0x102
/-- Value of `ESP_ERR_INVALID_STATE` in ESP-IDF `esp_err.h`. -/
def ESP_ERR_INVALID_STATE : Int := 0x103
/-- Value of `HTTPD_SOCK_ERR_TIMEOUT` in ESP-IDF `esp_http_server.h`. -/
def HTTPD_SOCK_ERR_TIMEOUT : Int := -3

/-- Value of `ESP_ERR_OTA_VALIDATE_FAILED` in ESP-IDF `esp_ota_ops.h`
(`ESP_ERR_OTA_BASE + 0x03`). -/
def ESP_ERR_OTA_VALIDATE_FAILED : Int := 0x1503

/-- `#define MAX_FILE_SIZE (1024*1024)`. -/
def MAX_FILE_SIZE : Nat := 1024 * 1024
/-- `#define SCRATCH_BUFSIZE 8192`. -/
def SCRATCH_BUFSIZE : Int := 8192

/-- Build-time quantities that come from ESP-IDF headers and `sdkconfig`, none of which is
part of the sources: `ESP_VFS_PATH_MAX`, `CONFIG_SPIFFS_OBJ_NAME_LEN`, the three `sizeof`s
used by the header check, and the position and width of the `version` field inside
`esp_app_desc_t`. -/
structure Sdk where
  ESP_VFS_PATH_MAX : Nat
  CONFIG_SPIFFS_OBJ_NAME_LEN : Nat
  sizeof_esp_image_header_t : Nat
  sizeof_esp_image_segment_header_t : Nat
  sizeof_esp_app_desc_t : Nat
  offsetof_version : Nat
  sizeof_version : Nat
  deriving DecidableEq, Repr

/-- The values of ESP-IDF for the ESP32 with the default SPIFFS configuration:
`ESP_VFS_PATH_MAX = 15`, `CONFIG_SPIFFS_OBJ_NAME_LEN = 32`, a 24-byte image header, an 8-byte
segment header, a 256-byte application descriptor whose `char version[32]` starts at
byte 16. -/
def esp32_sdk : Sdk :=
  { ESP_VFS_PATH_MAX := 15
    CONFIG_SPIFFS_OBJ_NAME_LEN := 32
    sizeof_esp_image_header_t := 24
    sizeof_esp_image_segment_header_t := 8
    sizeof_esp_app_desc_t := 256
    offsetof_version := 16
    sizeof_version := 32 }

/-- `#define FILE_PATH_MAX (ESP_VFS_PATH_MAX + CONFIG_SPIFFS_OBJ_NAME_LEN)`. -/
def Sdk.FILE_PATH_MAX (sdk : Sdk) : Nat :=
  sdk.ESP_VFS_PATH_MAX + sdk.CONFIG_SPIFFS_OBJ_NAME_LEN

/-- The bound of the header check:
`sizeof(esp_image_header_t) + sizeof(esp_image_segment_header_t) + sizeof(esp_app_desc_t)`. -/
def Sdk.header_window (sdk : Sdk) : Nat :=
  sdk.sizeof_esp_image_header_t + sdk.sizeof_esp_image_segment_header_t
    + sdk.sizeof_esp_app_desc_t

/-! ## Calls and environment -/

/-- The `ESP_LOGE` / `ESP_LOGW` lines of `upload_post_handler`, and the one `ESP_LOGI` line
that prints `binary_file_length`. -/
inductive Log
  /-- Warning pair: Configured OTA boot partition ... but running from ... -/
  | boot_partition_mismatch
  /-- Error: Invalid filename -/
  | invalid_filename
  /-- Error: File already exists -/
  | file_already_exists
  /-- Error: File too large -/
  | file_too_large
  /-- Error: File reception failed! -/
  | file_reception_failed
  /-- Warning triple: New version is the same as invalid version. ... -/
  | same_as_invalid_version
  /-- Warning: Current running version is the same as a new. We will not continue the
  update. -/
  | same_as_running_version
  /-- Error: esp_ota_begin failed -/
  | esp_ota_begin_failed
  /-- Error: received package is not fit len -/
  | not_fit_len
  /-- Info: Total Write binary data length : n -/
  | total_written (binary_file_length : Int)
  /-- Error: esp_ota_end failed! -/
  | esp_ota_end_failed
  /-- Error: esp_ota_set_boot_partition failed -/
  | esp_ota_set_boot_partition_failed
  deriving DecidableEq, Repr

/-- The error responses sent with `httpd_resp_send_err`. -/
inductive RespErr
  /-- 500, Filename too long -/
  | filename_too_long
  /-- 500, Invalid filename -/
  | invalid_filename
  /-- 400, File already exists -/
  | file_already_exists
  /-- 400, File size must be less than 1MB! -/
  | file_too_large
  /-- 500, Failed to receive file -/
  | failed_to_receive_file
  deriving DecidableEq, Repr

/-- An external call made by a handler, with its arguments. -/
inductive Call
  /-- The call `httpd_req_recv(req, ota_write_data, len)`. -/
  | httpd_req_recv (len : Int)
  /-- The call `httpd_resp_send_err(req, status, msg)`. -/
  | httpd_resp_send_err (e : RespErr)
  /-- The call `esp_ota_begin(update_partition, OTA_SIZE_UNKNOWN, &update_handle)`. -/
  | esp_ota_begin (update_partition : Nat)
  /-- The call `esp_ota_write(update_handle, ota_write_data, data_read)`; `data` are the
  first `data_read` bytes of the scratch buffer. -/
  | esp_ota_write (update_handle : Nat) (data : List Nat) (data_read : Int)
  /-- The call `esp_ota_end(update_handle)`. -/
  | esp_ota_end (update_handle : Nat)
  /-- The call `esp_ota_set_boot_partition(update_partition)`. -/
  | esp_ota_set_boot_partition (update_partition : Nat)
  /-- The call `esp_restart()`. -/
  | esp_restart
  /-- The call `http_board_restart_page(req)` (`ota_server.c`). -/
  | http_board_restart_page
  /-- An error or warning line on the log. -/
  | log (l : Log)
  deriving DecidableEq, Repr

/-- What one call of `httpd_req_recv` does: its return value and the bytes it left at the
start of the scratch buffer. The API promises `ret ≤ len` and, for `0 < ret`, that `ret` bytes
were stored; the embedding does not assume it. -/
structure RecvResult where
  ret : Int
  data : List Nat
  deriving DecidableEq, Repr

/-- The request fields the upload handler reads. -/
structure Req where
  /-- The field `req->uri`. -/
  uri : List Char
  /-- The field `req->content_len` (a `size_t`). -/
  content_len : Nat
  /-- The string `((struct file_server_data*) req->user_ctx)->base_path`. -/
  base_path : List Char

/-- The answers of the environment to the calls of one run of the upload handler. -/
structure Env where
  /-- Result of `esp_ota_get_boot_partition()`. -/
  configured : Nat
  /-- Result of `esp_ota_get_running_partition()`. -/
  running : Nat
  /-- Result of `esp_ota_get_next_update_partition(NULL)`. -/
  update_partition : Nat
  /-- Result of `stat(filepath, &file_stat)` for each path. -/
  stat : List Char → Int
  /-- Results of the successive `httpd_req_recv` calls. When the list is used up the
  handler stays blocked in the next `httpd_req_recv`. -/
  recvs : List RecvResult
  /-- Result of `esp_ota_get_partition_description(running, &running_app_info)` and the
  bytes of `running_app_info` after the call. -/
  running_app_info : Int × List Nat
  /-- Result of `esp_ota_get_last_invalid_partition()`; `none` is NULL. -/
  last_invalid_app : Option Nat
  /-- Result of `esp_ota_get_partition_description(last_invalid_app, &invalid_app_info)` and
  the bytes of `invalid_app_info` after the call. -/
  invalid_app_info : Int × List Nat
  /-- Result of `esp_ota_begin` and the value of `update_handle` after the call. -/
  esp_ota_begin : Int × Nat
  /-- Result of the `k`-th call (from 0) of `esp_ota_write`. -/
  esp_ota_write : Nat → Int
  /-- Result of `esp_ota_end`. -/
  esp_ota_end : Int
  /-- Result of `esp_ota_set_boot_partition`. -/
  esp_ota_set_boot_partition : Int

/-- How a handler run ends. -/
inductive Exit
  /-- The handler returned `code`. -/
  | returned (code : Int)
  /-- The handler called `esp_restart()`, which does not return. -/
  | restarted
  /-- The handler is waiting inside `httpd_req_recv` (the scripted results are used up). -/
  | blocked
  deriving DecidableEq, Repr

/-- A handler run: the calls made, in order, and how the run ends. -/
structure Outcome where
  calls : List Call
  exit : Exit
  deriving DecidableEq, Repr

/-! ## `get_path_from_uri` -/

/-- The C function `strchr(s, c)` for `c ≠ 0`: the index of the first occurrence of `c`, or
`none` (NULL). -/
def strchr (s : List Char) (c : Char) : Option Nat :=
  if s.indexOf c < s.length then some (s.indexOf c) else none

/-- Storing `bytes` into `buf` from index `off` on. -/
def store (buf : List Char) (off : Nat) (bytes : List Char) : List Char :=
  buf.take off ++ bytes ++ buf.drop (off + bytes.length)

/-- The C string that starts at index `off` of `buf`. -/
def cstr (buf : List Char) (off : Nat) : List Char :=
  (buf.drop off).takeWhile (fun c => c != '\x00')

/-- Result of `get_path_from_uri`: the destination buffer afterwards and the returned
pointer, as an index into the buffer (`none` is NULL). -/
structure PathResult where
  dest : List Char
  path : Option Nat
  deriving DecidableEq, Repr

/-- The function `get_path_from_uri(dest, base_path, uri, destsize)`
(`file_server.c:123`, `ota_server.c:92`). -/
def get_path_from_uri (dest : List Char) (base_path uri : List Char) (destsize : Nat) :
    PathResult :=
  let base_pathlen := base_path.length
  let pathlen := uri.length
  let pathlen := match strchr uri '?' with
    | some quest => min pathlen quest
    | none => pathlen
  let pathlen := match strchr uri '#' with
    | some hash => min pathlen hash
    | none => pathlen
  if base_pathlen + pathlen + 1 > destsize then
    { dest := dest, path := none }
  else
    -- strcpy(dest, base_path)
    let dest := store dest 0 (base_path ++ ['\x00'])
    -- strlcpy(dest + base_pathlen, uri, pathlen + 1)
    let dest := store dest base_pathlen (uri.take pathlen ++ ['\x00'])
    { dest := dest, path := some base_pathlen }

/-! ## The write loop of `upload_post_handler` -/

/-- The C function `memcmp(a, b, n)`: `0` when the first `n` bytes agree, otherwise the
difference of the first pair of bytes that differ. Bytes past the end of a list read
as `0`. -/
def memcmp : List Nat → List Nat → Nat → Int
  | _, _, 0 => 0
  | a, b, n + 1 =>
    if a.headD 0 = b.headD 0 then memcmp a.tail b.tail n
    else (a.headD 0 : Int) - (b.headD 0 : Int)

/-- The field `version` of an `esp_app_desc_t` given by its bytes. -/
def version (sdk : Sdk) (app_desc : List Nat) : List Nat :=
  app_desc.drop sdk.offsetof_version

/-- The descriptor `new_app_info` after
`memcpy(&new_app_info, &ota_write_data[sizeof(esp_image_header_t)
+ sizeof(esp_image_segment_header_t)], sizeof(esp_app_desc_t))`. -/
def new_app_info (sdk : Sdk) (ota_write_data : List Nat) : List Nat :=
  (ota_write_data.drop
    (sdk.sizeof_esp_image_header_t + sdk.sizeof_esp_image_segment_header_t)).take
      sdk.sizeof_esp_app_desc_t

/-- The version comparisons of `upload_post_handler` (`file_server.c:389-410`,
`ota_server.c:292-313`): the warnings they log, in order. -/
def version_check (sdk : Sdk) (env : Env) (ota_write_data : List Nat) : List Call :=
  (if env.last_invalid_app != none then
    if memcmp (version sdk env.invalid_app_info.2) (version sdk (new_app_info sdk ota_write_data))
        sdk.sizeof_version = 0 then
      [Call.log Log.same_as_invalid_version]
    else []
  else [])
  ++
  (if memcmp (version sdk (new_app_info sdk ota_write_data)) (version sdk env.running_app_info.2)
      sdk.sizeof_version = 0 then
    [Call.log Log.same_as_running_version]
  else [])

/-- The local variables of `upload_post_handler` that live across loop iterations, and the
number of `esp_ota_write` calls made so far. `err` is unset on entry and is never read
before it is assigned; it starts as `0` here. -/
structure LoopState where
  remaining : Int
  binary_file_length : Int
  image_header_was_checked : Bool
  update_handle : Nat
  err : Int
  writes : Nat
  deriving DecidableEq, Repr

/-- Result of one pass through the loop body. -/
inductive Step
  /-- The body reached its end, or executed `continue`. -/
  | next (calls : List Call) (st : LoopState)
  /-- The body executed `return code`. -/
  | ret (calls : List Call) (code : Int)
  deriving DecidableEq, Repr

/-- The part of the loop body guarded by `image_header_was_checked == false`
(`file_server.c:356-427`, `ota_server.c:259-330`). -/
def header_check (sdk : Sdk) (env : Env) (st : LoopState) (r : RecvResult) :
    List Call × LoopState :=
  if st.image_header_was_checked = false then
    if r.ret > (sdk.header_window : Int) then
      (version_check sdk env r.data
        ++ [Call.esp_ota_begin env.update_partition]
        ++ (if env.esp_ota_begin.1 ≠ ESP_OK then [Call.log Log.esp_ota_begin_failed] else []),
       { st with
          image_header_was_checked := true
          err := env.esp_ota_begin.1
          update_handle := env.esp_ota_begin.2 })
    else
      ([Call.log Log.not_fit_len], st)
  else
    ([], st)

/-- One pass through the body of `while (remaining > 0)` (`file_server.c:336-442`,
`ota_server.c:239-347`), where `httpd_req_recv` answers `r`. -/
def loop_body (sdk : Sdk) (env : Env) (st : LoopState) (r : RecvResult) : Step :=
  let recv := Call.httpd_req_recv (min st.remaining SCRATCH_BUFSIZE)
  if r.ret ≤ 0 then
    if r.ret = HTTPD_SOCK_ERR_TIMEOUT then
      Step.next [recv] st
    else
      Step.ret [recv, Call.log Log.file_reception_failed,
        Call.httpd_resp_send_err RespErr.failed_to_receive_file] ESP_FAIL
  else
    let hc := header_check sdk env st r
    let st := hc.2
    Step.next
      ([recv] ++ hc.1 ++ [Call.esp_ota_write st.update_handle (r.data.take r.ret.toNat) r.ret])
      { st with
        err := env.esp_ota_write st.writes
        writes := st.writes + 1
        remaining := st.remaining - r.ret
        binary_file_length := st.binary_file_length + r.ret }

/-- How the loop ends. -/
inductive LoopEnd
  /-- The condition `remaining > 0` became false with the variables as in `st`. -/
  | finished (st : LoopState)
  /-- The loop body returned `code` from the handler. -/
  | returned (code : Int)
  /-- The handler waits in `httpd_req_recv`. -/
  | blocked
  deriving DecidableEq, Repr

/-- The loop `while (remaining > 0) { ... }` run against the scripted answers of
`httpd_req_recv`: the calls made and how the loop ends. -/
def upload_loop (sdk : Sdk) (env : Env) : List RecvResult → LoopState → List Call × LoopEnd
  | [], st =>
    if st.remaining > 0 then
      ([Call.httpd_req_recv (min st.remaining SCRATCH_BUFSIZE)], LoopEnd.blocked)
    else ([], LoopEnd.finished st)
  | r :: rs, st =>
    if st.remaining > 0 then
      match loop_body sdk env st r with
      | Step.next calls st1 =>
        ((calls ++ (upload_loop sdk env rs st1).1), (upload_loop sdk env rs st1).2)
      | Step.ret calls code => (calls, LoopEnd.returned code)
    else ([], LoopEnd.finished st)

/-- The values of the loop variables after each completed pass through the loop body, in
order. -/
def loop_states (sdk : Sdk) (env : Env) : List RecvResult → LoopState → List LoopState
  | [], _ => []
  | r :: rs, st =>
    if st.remaining > 0 then
      match loop_body sdk env st r with
      | Step.next _ st1 => st1 :: loop_states sdk env rs st1
      | Step.ret _ _ => []
    else []

/-- The `httpd_req_recv` contract along a run of the loop: every call that returns a
positive value returns at most the requested `MIN(remaining, SCRATCH_BUFSIZE)`. -/
def recv_within_request (sdk : Sdk) (env : Env) : List RecvResult → LoopState → Bool
  | [], _ => true
  | r :: rs, st =>
    if st.remaining > 0 then
      (decide (0 < r.ret → r.ret ≤ min st.remaining SCRATCH_BUFSIZE)) &&
        match loop_body sdk env st r with
        | Step.next _ st1 => recv_within_request sdk env rs st1
        | Step.ret _ _ => true
    else true

/-! ## `upload_post_handler` -/

/-- The checks of `upload_post_handler` that precede the loop (`file_server.c:257-323`,
`ota_server.c:160-226`): the calls they make and, when one of them returns from the
handler, the returned code. `filepath` is a local array of `FILE_PATH_MAX` bytes; its
initial contents are not read. When `base_path` and the file name are both empty the
code reads `filepath[-1]`; `start_file_server` only ever stores the base path
`/spiffs`, and the read is modelled as reading byte 0. -/
def upload_checks (sdk : Sdk) (req : Req) (env : Env) : List Call × Option Int :=
  let c0 := if env.configured ≠ env.running then [Call.log Log.boot_partition_mismatch] else []
  let filepath := List.replicate sdk.FILE_PATH_MAX '\x00'
  -- req->uri + sizeof("/upload") - 1
  let p := get_path_from_uri filepath req.base_path (req.uri.drop 7) sdk.FILE_PATH_MAX
  match p.path with
  | none => (c0 ++ [Call.httpd_resp_send_err RespErr.filename_too_long], some ESP_FAIL)
  | some filename =>
    if p.dest.getD (filename + (cstr p.dest filename).length - 1) '\x00' = '/' then
      (c0 ++ [Call.log Log.invalid_filename,
        Call.httpd_resp_send_err RespErr.invalid_filename], some ESP_FAIL)
    else if env.stat (cstr p.dest 0) = 0 then
      (c0 ++ [Call.log Log.file_already_exists,
        Call.httpd_resp_send_err RespErr.file_already_exists], some ESP_FAIL)
    else if req.content_len > MAX_FILE_SIZE then
      (c0 ++ [Call.log Log.file_too_large,
        Call.httpd_resp_send_err RespErr.file_too_large], some ESP_FAIL)
    else (c0, none)

/-- The loop variables on entry to the loop: `remaining = req->content_len`, which is at
most `MAX_FILE_SIZE` here, so the conversion from `size_t` to `int` keeps the value. -/
def loop_entry (req : Req) : LoopState :=
  { remaining := (req.content_len : Int)
    binary_file_length := 0
    image_header_was_checked := false
    update_handle := 0
    err := 0
    writes := 0 }

/-- The calls after the loop that both files share (`file_server.c:444-456`,
`ota_server.c:349-361`). -/
def commit_calls (env : Env) (st : LoopState) : List Call :=
  [Call.log (Log.total_written st.binary_file_length), Call.esp_ota_end st.update_handle]
  ++ (if env.esp_ota_end ≠ ESP_OK then [Call.log Log.esp_ota_end_failed] else [])
  ++ [Call.esp_ota_set_boot_partition env.update_partition]
  ++ (if env.esp_ota_set_boot_partition ≠ ESP_OK then
        [Call.log Log.esp_ota_set_boot_partition_failed] else [])

namespace file_server

/-- The function `upload_post_handler` of `file_server.c` (lines 245-461). -/
def upload_post_handler (sdk : Sdk) (req : Req) (env : Env) : Outcome :=
  match upload_checks sdk req env with
  | (c, some code) => { calls := c, exit := Exit.returned code }
  | (c, none) =>
    match upload_loop sdk env env.recvs (loop_entry req) with
    | (l, LoopEnd.blocked) => { calls := c ++ l, exit := Exit.blocked }
    | (l, LoopEnd.returned code) => { calls := c ++ l, exit := Exit.returned code }
    | (l, LoopEnd.finished st) =>
      -- esp_restart() does not return; the `return ESP_OK` after it is never reached
      { calls := c ++ l ++ commit_calls env st ++ [Call.esp_restart], exit := Exit.restarted }

end file_server

namespace ota_server

/-- The function `upload_post_handler` of `ota_server.c` (lines 148-366). -/
def upload_post_handler (sdk : Sdk) (req : Req) (env : Env) : Outcome :=
  match upload_checks sdk req env with
  | (c, some code) => { calls := c, exit := Exit.returned code }
  | (c, none) =>
    match upload_loop sdk env env.recvs (loop_entry req) with
    | (l, LoopEnd.blocked) => { calls := c ++ l, exit := Exit.blocked }
    | (l, LoopEnd.returned code) => { calls := c ++ l, exit := Exit.returned code }
    | (l, LoopEnd.finished st) =>
      { calls := c ++ l ++ commit_calls env st ++ [Call.http_board_restart_page],
        exit := Exit.returned ESP_OK }

/-- The function `run_reset_handler` of `ota_server.c` (lines 368-375). -/
def run_reset_handler : Outcome :=
  { calls := [Call.esp_restart], exit := Exit.restarted }

end ota_server

/-! ## `start_file_server` -/

/-- The handlers registered by `start_file_server`. -/
inductive Handler
  | download_get_handler
  | upload_post_handler
  | run_reset_handler
  deriving DecidableEq, Repr

/-- The HTTP methods used in the registrations. -/
inductive Method
  | HTTP_GET
  | HTTP_POST
  deriving DecidableEq, Repr

/-- The error lines logged by `start_file_server`. -/
inductive ServerLog
  /-- Error: File server presently supports only '/spiffs' as base path -/
  | only_spiffs_supported
  /-- Error: File server already started -/
  | already_started
  /-- Error: Failed to allocate memory for server data -/
  | no_memory
  /-- Error: Failed to start file server! -/
  | failed_to_start
  deriving DecidableEq, Repr

/-- An external call made by `start_file_server`. -/
inductive ServerCall
  /-- The call `calloc(1, sizeof(struct file_server_data))`. -/
  | calloc
  /-- The call `httpd_start(&server, &config)`. -/
  | httpd_start
  /-- The call `httpd_register_uri_handler(server, &h)` with the fields of `h`. -/
  | httpd_register_uri_handler (uri : List Char) (method : Method) (handler : Handler)
  /-- An error line on the log. -/
  | log (l : ServerLog)
  deriving DecidableEq, Repr

/-- The answers of the environment to the calls of `start_file_server`. -/
structure ServerEnv where
  /-- Whether `calloc` returns a non-NULL pointer. -/
  calloc_succeeds : Bool
  /-- Result of `httpd_start`. -/
  httpd_start : Int

/-- Result of `start_file_server`: the value of the static pointer `server_data` afterwards
(`none` is NULL, `some p` a block whose `base_path` holds `p`), the calls made, and the
returned code. -/
structure StartResult where
  server_data : Option (List Char)
  calls : List ServerCall
  ret : Int
  deriving DecidableEq, Repr

/-- The part of `start_file_server` that the two files share (`file_server.c:464-504`,
`ota_server.c:378-418`): everything up to and including `httpd_start`. The result carries
`ESP_OK` when the function goes on to register its handlers. `base_path = none` is a NULL
argument. -/
def start_server (sdk : Sdk) (base_path : Option (List Char)) (env : ServerEnv)
    (server_data : Option (List Char)) : StartResult :=
  match base_path with
  | none =>
    { server_data := server_data, calls := [ServerCall.log ServerLog.only_spiffs_supported],
      ret := ESP_ERR_INVALID_ARG }
  | some path =>
    -- strcmp(base_path, "/spiffs") != 0
    if path ≠ "/spiffs".toList then
      { server_data := server_data, calls := [ServerCall.log ServerLog.only_spiffs_supported],
        ret := ESP_ERR_INVALID_ARG }
    else if server_data ≠ none then
      { server_data := server_data, calls := [ServerCall.log ServerLog.already_started],
        ret := ESP_ERR_INVALID_STATE }
    else if env.calloc_succeeds = false then
      { server_data := none, calls := [ServerCall.calloc, ServerCall.log ServerLog.no_memory],
        ret := ESP_ERR_NO_MEM }
    else
      -- strlcpy(server_data->base_path, base_path, sizeof(server_data->base_path))
      let stored := path.take sdk.ESP_VFS_PATH_MAX
      if env.httpd_start ≠ ESP_OK then
        { server_data := some stored,
          calls := [ServerCall.calloc, ServerCall.httpd_start,
            ServerCall.log ServerLog.failed_to_start],
          ret := ESP_FAIL }
      else
        { server_data := some stored, calls := [ServerCall.calloc, ServerCall.httpd_start],
          ret := ESP_OK }

namespace file_server

/-- The function `start_file_server` of `file_server.c` (lines 464-523). -/
def start_file_server (sdk : Sdk) (base_path : Option (List Char)) (env : ServerEnv)
    (server_data : Option (List Char)) : StartResult :=
  let r := start_server sdk base_path env server_data
  if r.ret ≠ ESP_OK then r
  else
    { r with calls := r.calls ++
        [ServerCall.httpd_register_uri_handler "/*".toList Method.HTTP_GET
          Handler.download_get_handler,
         ServerCall.httpd_register_uri_handler "/upload/*".toList Method.HTTP_POST
          Handler.upload_post_handler] }

end file_server

namespace ota_server

/-- The function `start_file_server` of `ota_server.c` (lines 378-452). -/
def start_file_server (sdk : Sdk) (base_path : Option (List Char)) (env : ServerEnv)
    (server_data : Option (List Char)) : StartResult :=
  let r := start_server sdk base_path env server_data
  if r.ret ≠ ESP_OK then r
  else
    { r with calls := r.calls ++
        [ServerCall.httpd_register_uri_handler "/*".toList Method.HTTP_GET
          Handler.download_get_handler,
         ServerCall.httpd_register_uri_handler "/upload/*".toList Method.HTTP_POST
          Handler.upload_post_handler,
         ServerCall.httpd_register_uri_handler "/run_reset".toList Method.HTTP_POST
          Handler.run_reset_handler] }

end ota_server

/-! ## Auxiliary definitions for the proofs -/

/-- Calls that only report: a log line or an error response. -/
def Call.is_report : Call → Bool
  | Call.log _ => true
  | Call.httpd_resp_send_err _ => true
  | _ => false

/-- Calls that can be made before the loop is left. -/
def Call.before_commit : Call → Bool
  | Call.httpd_req_recv _ => true
  | Call.httpd_resp_send_err _ => true
  | Call.esp_ota_begin _ => true
  | Call.esp_ota_write _ _ _ => true
  | Call.log (Log.total_written _) => false
  | Call.log Log.esp_ota_end_failed => false
  | Call.log Log.esp_ota_set_boot_partition_failed => false
  | Call.log _ => true
  | _ => false

/-- The part of `upload_post_handler` that the two files share up to the end of the loop:
the calls made and how this part ends. -/
def upload_until_commit (sdk : Sdk) (req : Req) (env : Env) : List Call × LoopEnd :=
  match (upload_checks sdk req env).2 with
  | some code => ((upload_checks sdk req env).1, LoopEnd.returned code)
  | none =>
    ((upload_checks sdk req env).1 ++ (upload_loop sdk env env.recvs (loop_entry req)).1,
      (upload_loop sdk env env.recvs (loop_entry req)).2)

/-- The common shape of a run of either `upload_post_handler`: either the loop was left
and the run is the shared part, the commit calls and one closing call `last`, ending
in `ex`; or the run is the shared part alone and ends blocked or with `ESP_FAIL`. -/
def HandlerShape (sdk : Sdk) (req : Req) (env : Env) (last : Call) (ex : Exit) (o : Outcome) :
    Prop :=
  (∃ st, (upload_until_commit sdk req env).2 = LoopEnd.finished st ∧
      o.calls = (upload_until_commit sdk req env).1 ++ commit_calls env st ++ [last] ∧
      o.exit = ex) ∨
  ((∀ st, (upload_until_commit sdk req env).2 ≠ LoopEnd.finished st) ∧
      o.calls = (upload_until_commit sdk req env).1 ∧
      (o.exit = Exit.blocked ∧ (upload_until_commit sdk req env).2 = LoopEnd.blocked ∨
       o.exit = Exit.returned ESP_FAIL ∧
         (upload_until_commit sdk req env).2 = LoopEnd.returned ESP_FAIL))

/-- Two values of the loop variables that agree except possibly on `err`. -/
def SameButErr (s t : LoopState) : Prop :=
  s.remaining = t.remaining ∧ s.binary_file_length = t.binary_file_length ∧
  s.image_header_was_checked = t.image_header_was_checked ∧
  s.update_handle = t.update_handle ∧ s.writes = t.writes

/-- Two ends of the loop that agree except possibly on the final `err`. -/
def SameEnd : LoopEnd → LoopEnd → Prop
  | LoopEnd.finished s, LoopEnd.finished t => SameButErr s t
  | LoopEnd.returned c, LoopEnd.returned d => c = d
  | LoopEnd.blocked, LoopEnd.blocked => True
  | _, _ => False

/-- The three outcomes of the version policy of the specification (section 4.3). -/
inductive Decision
  | Proceed
  | WarnSameAsFailed
  | WarnNoNewer
  deriving DecidableEq, Repr

/-- The version policy as the specification words it, over `n`-byte version fields, the
rules applied in order: `WarnSameAsFailed` if `last_failed` is present and equal to the
candidate, otherwise `WarnNoNewer` if the candidate equals the running version, otherwise
`Proceed`. -/
def spec_version_policy (n : Nat) (candidate running : List Nat)
    (last_failed : Option (List Nat)) : Decision :=
  match last_failed with
  | some failed =>
    if memcmp failed candidate n = 0 then Decision.WarnSameAsFailed
    else if memcmp candidate running n = 0 then Decision.WarnNoNewer
    else Decision.Proceed
  | none =>
    if memcmp candidate running n = 0 then Decision.WarnNoNewer else Decision.Proceed

/-- The warnings that an outcome of the specification's policy stands for. -/
def Decision.warnings : Decision → List Call
  | Decision.Proceed => []
  | Decision.WarnSameAsFailed => [Call.log Log.same_as_invalid_version]
  | Decision.WarnNoNewer => [Call.log Log.same_as_running_version]

/-- The calls of the OTA write interface: `esp_ota_begin`, `esp_ota_write`, `esp_ota_end`
and `esp_ota_set_boot_partition`. -/
def Call.is_ota : Call → Bool
  | Call.esp_ota_begin _ => true
  | Call.esp_ota_write _ _ _ => true
  | Call.esp_ota_end _ => true
  | Call.esp_ota_set_boot_partition _ => true
  | _ => false

/-- Every call except the two version warnings. -/
def Call.not_version_warning : Call → Bool
  | Call.log Log.same_as_invalid_version => false
  | Call.log Log.same_as_running_version => false
  | _ => true

/-- The environment `env` with other version information: the running descriptor, the
descriptor of the last invalid partition, and the last invalid partition itself. -/
def Env.with_versions (env : Env) (running invalid : Int × List Nat) (last : Option Nat) :
    Env :=
  { env with running_app_info := running, invalid_app_info := invalid, last_invalid_app := last }

/-- Two runs agree on the calls selected by `view`, in order, and end in the same way. -/
def Outcome.agree (view : Call → Bool) (o1 o2 : Outcome) : Prop :=
  o1.calls.filter view = o2.calls.filter view ∧ o1.exit = o2.exit

/-- The path length of the specification: the index of the first `?` or `#` in `uri`, or
the length of `uri` when neither occurs. -/
def spec_pathlen (uri : List Char) : Nat :=
  (uri.takeWhile (fun c => c != '?' && c != '#')).length

/-- The length computed by `get_path_from_uri` from the two `strchr` results. -/
def code_pathlen (uri : List Char) : Nat :=
  let pathlen := uri.length
  let pathlen := match strchr uri '?' with
    | some quest => min pathlen quest
    | none => pathlen
  match strchr uri '#' with
    | some hash => min pathlen hash
    | none => pathlen

/-- The calls that show a chunk being examined for the image header: the `not fit len`
line, the two version warnings, and `esp_ota_begin`. -/
def Call.examines_header : Call → Bool
  | Call.log Log.not_fit_len => true
  | Call.log Log.same_as_invalid_version => true
  | Call.log Log.same_as_running_version => true
  | Call.esp_ota_begin _ => true
  | _ => false

/-- The calls `esp_ota_begin`. -/
def Call.is_begin : Call → Bool
  | Call.esp_ota_begin _ => true
  | _ => false

/-- The receive results of a transport that delivers the given chunks, each in full. -/
def deliver (chunks : List (List Nat)) : List RecvResult :=
  chunks.map (fun c => { ret := (c.length : Int), data := c })

/-- The bytes passed to `esp_ota_write` along a list of calls, on whatever handle, in
order. -/
def write_data : List Call → List Nat
  | [] => []
  | Call.esp_ota_write _ d _ :: cs => d ++ write_data cs
  | _ :: cs => write_data cs

/-- The bytes passed to `esp_ota_write` on the handle `h` along a list of calls, in order:
with `h` the handle that `esp_ota_begin` handed out for the update partition, these are the
bytes appended to that partition. -/
def written_to (h : Nat) : List Call → List Nat
  | [] => []
  | Call.esp_ota_write u d _ :: cs => if u = h then d ++ written_to h cs else written_to h cs
  | _ :: cs => written_to h cs

/-- The calls `esp_ota_write`. -/
def Call.is_write : Call → Bool
  | Call.esp_ota_write _ _ _ => true
  | _ => false

/-! ## Example inputs -/

/-- The request `POST /upload/fw.bin` with the given `Content-Length`, on a server whose
base path is `/spiffs`. -/
def fw_req (content_len : Nat) : Req :=
  { uri := "/upload/fw.bin".toList, content_len := content_len, base_path := "/spiffs".toList }

/-- A receive that delivers `n` bytes, all zero. -/
def chunk (n : Nat) : RecvResult :=
  { ret := (n : Int), data := List.replicate n 0 }

/-- An environment with the given receive results in which the uploaded file does not
exist yet, partition 1 is both configured and running, partition 2 is the update
partition, the running version string is `1`, there is no last invalid partition, and
every OTA call succeeds, `esp_ota_begin` handing out handle 1. -/
def ok_env (recvs : List RecvResult) : Env :=
  { configured := 1
    running := 1
    update_partition := 2
    stat := fun _ => -1
    recvs := recvs
    running_app_info := (ESP_OK, List.replicate 16 0 ++ [49])
    last_invalid_app := none
    invalid_app_info := (ESP_ERR_INVALID_ARG, [])
    esp_ota_begin := (ESP_OK, 1)
    esp_ota_write := fun _ => ESP_OK
    esp_ota_end := ESP_OK
    esp_ota_set_boot_partition := ESP_OK }

/-- An environment as `ok_env` in which the running version and the version of the last
invalid partition (partition 3) are both the all-zero string, the version that the
chunks of `chunk` carry. -/
def same_version_env (recvs : List RecvResult) : Env :=
  { ok_env recvs with
    running_app_info := (ESP_OK, List.replicate 256 0)
    last_invalid_app := some 3
    invalid_app_info := (ESP_OK, List.replicate 256 0) }

/-! ## Lemmas -/

theorem upload_checks_report (sdk : Sdk) (req : Req) (env : Env) :
    ∀ c ∈ (upload_checks sdk req env).1, c.is_report = true ∧ c.before_commit = true := by
  intro c hc
  unfold upload_checks at hc
  simp only at hc
  split at hc <;> split_ifs at hc <;> simp at hc <;> (try casesm* _ ∨ _) <;> subst_vars <;>
    simp [Call.is_report, Call.before_commit]

theorem version_check_mem (sdk : Sdk) (env : Env) (d : List Nat) :
    ∀ c ∈ version_check sdk env d,
      c = Call.log Log.same_as_invalid_version ∨ c = Call.log Log.same_as_running_version := by
  intro c hc
  unfold version_check at hc
  split_ifs at hc <;> simp at hc <;> (try casesm* _ ∨ _) <;> subst_vars <;> simp

theorem header_check_frame (sdk : Sdk) (env : Env) (st : LoopState) (r : RecvResult) :
    (header_check sdk env st r).2.remaining = st.remaining ∧
    (header_check sdk env st r).2.binary_file_length = st.binary_file_length ∧
    (header_check sdk env st r).2.writes = st.writes := by
  unfold header_check
  split_ifs <;> simp

theorem header_check_before_commit (sdk : Sdk) (env : Env) (st : LoopState) (r : RecvResult) :
    ∀ c ∈ (header_check sdk env st r).1, c.before_commit = true := by
  intro c hc
  unfold header_check at hc
  split_ifs at hc <;> simp at hc <;> (try casesm* _ ∨ _) <;> subst_vars <;>
    (try simp [Call.before_commit]) <;>
    (rcases version_check_mem sdk env r.data c (by assumption) with h | h <;> subst h <;>
      simp [Call.before_commit])

theorem loop_body_next_before_commit (sdk : Sdk) (env : Env) (st st1 : LoopState)
    (r : RecvResult) (cs : List Call) (h : loop_body sdk env st r = Step.next cs st1) :
    ∀ c ∈ cs, c.before_commit = true := by
  intro c hc
  unfold loop_body at h
  simp only at h
  split_ifs at h
  · simp only [Step.next.injEq] at h
    obtain ⟨rfl, -⟩ := h
    simp at hc; subst hc; simp [Call.before_commit]
  · simp only [Step.next.injEq] at h
    obtain ⟨rfl, -⟩ := h
    simp at hc
    rcases hc with h | h | h
    · subst h; simp [Call.before_commit]
    · exact header_check_before_commit sdk env st r c h
    · subst h; simp [Call.before_commit]

theorem loop_body_ret_eq (sdk : Sdk) (env : Env) (st : LoopState) (r : RecvResult)
    (cs : List Call) (code : Int) (h : loop_body sdk env st r = Step.ret cs code) :
    code = ESP_FAIL ∧
    cs = [Call.httpd_req_recv (min st.remaining SCRATCH_BUFSIZE),
      Call.log Log.file_reception_failed,
      Call.httpd_resp_send_err RespErr.failed_to_receive_file] ∧
    r.ret ≤ 0 ∧ r.ret ≠ HTTPD_SOCK_ERR_TIMEOUT := by
  unfold loop_body at h
  simp only at h
  split_ifs at h with h1 h2
  simp only [Step.ret.injEq] at h
  obtain ⟨rfl, rfl⟩ := h
  exact ⟨rfl, rfl, h1, h2⟩

theorem upload_loop_before_commit (sdk : Sdk) (env : Env) (rs : List RecvResult) :
    ∀ st, ∀ c ∈ (upload_loop sdk env rs st).1, c.before_commit = true := by
  induction rs with
  | nil =>
    intro st c hc
    unfold upload_loop at hc
    split_ifs at hc <;> simp at hc
    subst hc; simp [Call.before_commit]
  | cons r rs ih =>
    intro st c hc
    unfold upload_loop at hc
    split_ifs at hc
    · split at hc
      · rename_i cs st1 hb
        simp at hc
        rcases hc with h | h
        · exact loop_body_next_before_commit sdk env st st1 r cs hb c h
        · exact ih st1 c h
      · rename_i cs code hb
        obtain ⟨-, rfl, -, -⟩ := loop_body_ret_eq sdk env st r cs code hb
        simp at hc
        rcases hc with h | h | h <;> subst h <;> simp [Call.before_commit]
    · simp at hc

theorem upload_loop_returned (sdk : Sdk) (env : Env) (rs : List RecvResult) :
    ∀ st code, (upload_loop sdk env rs st).2 = LoopEnd.returned code → code = ESP_FAIL := by
  induction rs with
  | nil =>
    intro st code h
    unfold upload_loop at h
    split_ifs at h
  | cons r rs ih =>
    intro st code h
    unfold upload_loop at h
    split_ifs at h
    · split at h
      · rename_i cs st1 hb
        exact ih st1 code h
      · rename_i cs code1 hb
        simp at h
        subst h
        exact (loop_body_ret_eq sdk env st r cs code1 hb).1

theorem loop_body_next_invariant (sdk : Sdk) (env : Env) (st st1 : LoopState) (r : RecvResult)
    (cs : List Call) (N : Int) (h : loop_body sdk env st r = Step.next cs st1)
    (hreq : 0 < r.ret → r.ret ≤ min st.remaining SCRATCH_BUFSIZE)
    (hinv : st.binary_file_length + st.remaining = N ∧ 0 ≤ st.remaining) :
    st1.binary_file_length + st1.remaining = N ∧ 0 ≤ st1.remaining := by
  unfold loop_body at h
  simp only at h
  split_ifs at h with h1 h2
  · simp only [Step.next.injEq] at h
    obtain ⟨-, rfl⟩ := h
    exact hinv
  · simp only [Step.next.injEq] at h
    obtain ⟨-, rfl⟩ := h
    obtain ⟨f1, f2, -⟩ := header_check_frame sdk env st r
    have hpos : 0 < r.ret := by omega
    have hle := hreq hpos
    have hle2 : r.ret ≤ st.remaining := le_trans hle (min_le_left _ _)
    simp only [f1, f2]
    omega

theorem upload_loop_invariant (sdk : Sdk) (env : Env) (N : Int) (rs : List RecvResult) :
    ∀ st, recv_within_request sdk env rs st = true →
      (st.binary_file_length + st.remaining = N ∧ 0 ≤ st.remaining) →
      (∀ s ∈ loop_states sdk env rs st, s.binary_file_length + s.remaining = N ∧ 0 ≤ s.remaining) ∧
      (∀ s, (upload_loop sdk env rs st).2 = LoopEnd.finished s →
        s.binary_file_length = N ∧ s.remaining = 0) := by
  induction rs with
  | nil =>
    intro st _ hinv
    refine ⟨by simp [loop_states], ?_⟩
    intro s hs
    unfold upload_loop at hs
    split_ifs at hs with hr
    simp only [LoopEnd.finished.injEq] at hs
    subst hs
    omega
  | cons r rs ih =>
    intro st hreq hinv
    unfold recv_within_request at hreq
    unfold loop_states upload_loop
    split_ifs at hreq ⊢ with hr
    · simp only [Bool.and_eq_true, decide_eq_true_eq] at hreq
      obtain ⟨hq, hrest⟩ := hreq
      split at hrest
      · rename_i cs st1 hb
        have hinv1 := loop_body_next_invariant sdk env st st1 r cs N hb hq hinv
        obtain ⟨ih1, ih2⟩ := ih st1 hrest hinv1
        simp only [hb]
        refine ⟨?_, ih2⟩
        intro s hs
        simp only [List.mem_cons] at hs
        rcases hs with rfl | hs
        · exact hinv1
        · exact ih1 s hs
      · rename_i cs code hb
        simp [hb]
    · refine ⟨by simp, ?_⟩
      intro s hs
      simp only [LoopEnd.finished.injEq] at hs
      subst hs
      omega

theorem file_server_handler_eq (sdk : Sdk) (req : Req) (env : Env) :
    file_server.upload_post_handler sdk req env =
      match upload_until_commit sdk req env with
      | (cs, LoopEnd.finished st) =>
        { calls := cs ++ commit_calls env st ++ [Call.esp_restart], exit := Exit.restarted }
      | (cs, LoopEnd.returned code) => { calls := cs, exit := Exit.returned code }
      | (cs, LoopEnd.blocked) => { calls := cs, exit := Exit.blocked } := by
  unfold file_server.upload_post_handler upload_until_commit
  rcases hc : upload_checks sdk req env with ⟨c, _ | code⟩
  · rcases hl : upload_loop sdk env env.recvs (loop_entry req) with ⟨l, _ | _ | _⟩ <;> simp
  · simp

theorem ota_server_handler_eq (sdk : Sdk) (req : Req) (env : Env) :
    ota_server.upload_post_handler sdk req env =
      match upload_until_commit sdk req env with
      | (cs, LoopEnd.finished st) =>
        { calls := cs ++ commit_calls env st ++ [Call.http_board_restart_page],
          exit := Exit.returned ESP_OK }
      | (cs, LoopEnd.returned code) => { calls := cs, exit := Exit.returned code }
      | (cs, LoopEnd.blocked) => { calls := cs, exit := Exit.blocked } := by
  unfold ota_server.upload_post_handler upload_until_commit
  rcases hc : upload_checks sdk req env with ⟨c, _ | code⟩
  · rcases hl : upload_loop sdk env env.recvs (loop_entry req) with ⟨l, _ | _ | _⟩ <;> simp
  · simp

theorem upload_checks_code (sdk : Sdk) (req : Req) (env : Env) (code : Int)
    (h : (upload_checks sdk req env).2 = some code) : code = ESP_FAIL := by
  unfold upload_checks at h
  simp only at h
  split at h <;> split_ifs at h <;> simp at h <;> exact h.symm

theorem upload_until_commit_before_commit (sdk : Sdk) (req : Req) (env : Env) :
    ∀ c ∈ (upload_until_commit sdk req env).1, c.before_commit = true := by
  intro c hc
  unfold upload_until_commit at hc
  split at hc
  · exact (upload_checks_report sdk req env c hc).2
  · simp only [List.mem_append] at hc
    rcases hc with h | h
    · exact (upload_checks_report sdk req env c h).2
    · exact upload_loop_before_commit sdk env _ _ c h

theorem upload_until_commit_returned (sdk : Sdk) (req : Req) (env : Env) (code : Int)
    (h : (upload_until_commit sdk req env).2 = LoopEnd.returned code) : code = ESP_FAIL := by
  unfold upload_until_commit at h
  split at h
  · rename_i code1 hc
    simp only [LoopEnd.returned.injEq] at h
    subst h
    exact upload_checks_code sdk req env code1 hc
  · exact upload_loop_returned sdk env _ _ code h

theorem upload_until_commit_finished (sdk : Sdk) (req : Req) (env : Env) (st : LoopState)
    (h : (upload_until_commit sdk req env).2 = LoopEnd.finished st) :
    (upload_checks sdk req env).2 = none ∧
    (upload_loop sdk env env.recvs (loop_entry req)).2 = LoopEnd.finished st := by
  unfold upload_until_commit at h
  split at h
  · simp at h
  · rename_i hc
    exact ⟨hc, h⟩

theorem mem_commit_calls (env : Env) (st : LoopState) (c : Call) (h : c ∈ commit_calls env st) :
    c = Call.log (Log.total_written st.binary_file_length) ∨
    c = Call.esp_ota_end st.update_handle ∨
    c = Call.log Log.esp_ota_end_failed ∨
    c = Call.esp_ota_set_boot_partition env.update_partition ∨
    c = Call.log Log.esp_ota_set_boot_partition_failed := by
  unfold commit_calls at h
  split_ifs at h <;> simp at h <;> tauto

theorem handler_shape_of_eq (sdk : Sdk) (req : Req) (env : Env) (last : Call) (ex : Exit)
    (o : Outcome)
    (h : o = match upload_until_commit sdk req env with
      | (cs, LoopEnd.finished st) => { calls := cs ++ commit_calls env st ++ [last], exit := ex }
      | (cs, LoopEnd.returned code) => { calls := cs, exit := Exit.returned code }
      | (cs, LoopEnd.blocked) => { calls := cs, exit := Exit.blocked }) :
    HandlerShape sdk req env last ex o := by
  unfold HandlerShape
  rcases hu : upload_until_commit sdk req env with ⟨cs, st | code | _⟩
  · left
    rw [hu] at h
    exact ⟨st, rfl, by simp [h], by simp [h]⟩
  · right
    have hcode := upload_until_commit_returned sdk req env code (by rw [hu])
    subst hcode
    rw [hu] at h
    exact ⟨by simp, by simp [h], Or.inr ⟨by simp [h], rfl⟩⟩
  · right
    rw [hu] at h
    exact ⟨by simp, by simp [h], Or.inl ⟨by simp [h], rfl⟩⟩

theorem file_server_shape (sdk : Sdk) (req : Req) (env : Env) :
    HandlerShape sdk req env Call.esp_restart Exit.restarted
      (file_server.upload_post_handler sdk req env) :=
  handler_shape_of_eq sdk req env _ _ _ (file_server_handler_eq sdk req env)

theorem ota_server_shape (sdk : Sdk) (req : Req) (env : Env) :
    HandlerShape sdk req env Call.http_board_restart_page (Exit.returned ESP_OK)
      (ota_server.upload_post_handler sdk req env) :=
  handler_shape_of_eq sdk req env _ _ _ (ota_server_handler_eq sdk req env)

theorem shape_total_written (sdk : Sdk) (req : Req) (env : Env) (last : Call) (ex : Exit)
    (o : Outcome) (hs : HandlerShape sdk req env last ex o)
    (hlast : ∀ n, last ≠ Call.log (Log.total_written n))
    (hrecv : recv_within_request sdk env env.recvs (loop_entry req) = true) :
    (∀ n, Call.log (Log.total_written n) ∈ o.calls → n = req.content_len) ∧
    (∀ c ∈ o.calls, (∃ h, c = Call.esp_ota_end h) ∨ (∃ p, c = Call.esp_ota_set_boot_partition p) →
      Call.log (Log.total_written req.content_len) ∈ o.calls) := by
  have hb := upload_until_commit_before_commit sdk req env
  rcases hs with ⟨st, hfin, hcalls, -⟩ | ⟨-, hcalls, -⟩
  · have hloop := (upload_until_commit_finished sdk req env st hfin).2
    have hN := ((upload_loop_invariant sdk env req.content_len env.recvs (loop_entry req) hrecv
      (by simp [loop_entry])).2 st hloop).1
    constructor
    · intro n hn
      rw [hcalls] at hn
      simp only [List.mem_append, List.mem_singleton] at hn
      rcases hn with (hn | hn) | hn
      · have := hb _ hn
        simp [Call.before_commit] at this
      · rcases mem_commit_calls env st _ hn with h | h | h | h | h <;> simp at h
        rw [h, hN]
      · exact absurd hn.symm (hlast n)
    · intro c _ _
      rw [hcalls, ← hN]
      simp [commit_calls]
  · constructor
    · intro n hn
      rw [hcalls] at hn
      have := hb _ hn
      simp [Call.before_commit] at this
    · intro c hc hcase
      rw [hcalls] at hc
      have := hb _ hc
      rcases hcase with ⟨h, rfl⟩ | ⟨p, rfl⟩ <;> simp [Call.before_commit] at this

theorem upload_checks_too_large (sdk : Sdk) (req : Req) (env : Env)
    (h : MAX_FILE_SIZE < req.content_len) : (upload_checks sdk req env).2 = some ESP_FAIL := by
  unfold upload_checks
  simp only
  split <;> split_ifs <;> simp_all

theorem shape_too_large (sdk : Sdk) (req : Req) (env : Env) (last : Call) (ex : Exit)
    (o : Outcome) (hs : HandlerShape sdk req env last ex o)
    (h : MAX_FILE_SIZE < req.content_len) :
    o.exit = Exit.returned ESP_FAIL ∧ ∀ c ∈ o.calls, c.is_report = true := by
  have hc := upload_checks_too_large sdk req env h
  have hu : upload_until_commit sdk req env = ((upload_checks sdk req env).1,
      LoopEnd.returned ESP_FAIL) := by
    unfold upload_until_commit
    rw [hc]
  rcases hs with ⟨st, hfin, -, -⟩ | ⟨-, hcalls, hex⟩
  · rw [hu] at hfin
    simp at hfin
  · rw [hu] at hcalls hex
    simp only [reduceCtorEq, and_false, and_true, false_or] at hex
    refine ⟨hex, ?_⟩
    intro c hcm
    rw [hcalls] at hcm
    exact (upload_checks_report sdk req env c hcm).1

theorem upload_checks_size_boundary (sdk : Sdk) (uri base_path : List Char) (env : Env)
    (n : Nat) (h : n ≤ MAX_FILE_SIZE) :
    upload_checks sdk { uri := uri, content_len := n, base_path := base_path } env =
      upload_checks sdk { uri := uri, content_len := 0, base_path := base_path } env := by
  unfold upload_checks
  simp only
  have h1 : ¬ n > MAX_FILE_SIZE := by omega
  have h2 : ¬ 0 > MAX_FILE_SIZE := by decide
  split <;> split_ifs <;> rfl

theorem loop_body_recvs (sdk : Sdk) (env : Env) (x : List RecvResult) (st : LoopState)
    (r : RecvResult) : loop_body sdk { env with recvs := x } st r = loop_body sdk env st r := rfl

theorem upload_loop_recvs (sdk : Sdk) (env : Env) (x : List RecvResult) (rs : List RecvResult) :
    ∀ st, upload_loop sdk { env with recvs := x } rs st = upload_loop sdk env rs st := by
  induction rs with
  | nil => intro st; rfl
  | cons r rs ih =>
    intro st
    unfold upload_loop
    simp only [loop_body_recvs, ih]

theorem upload_checks_recvs (sdk : Sdk) (req : Req) (env : Env) (x : List RecvResult) :
    upload_checks sdk req { env with recvs := x } = upload_checks sdk req env := rfl

theorem upload_loop_head (sdk : Sdk) (env : Env) (rs : List RecvResult) (st : LoopState)
    (h : 0 < st.remaining) :
    ∃ tl, (upload_loop sdk env rs st).1 =
      Call.httpd_req_recv (min st.remaining SCRATCH_BUFSIZE) :: tl := by
  cases rs with
  | nil => exact ⟨[], by simp [upload_loop, h]⟩
  | cons r rs =>
    unfold upload_loop
    simp only [gt_iff_lt, h, if_true]
    unfold loop_body
    simp only
    split_ifs <;> simp

theorem upload_loop_cons_next (sdk : Sdk) (env : Env) (r : RecvResult) (rs : List RecvResult)
    (st st1 : LoopState) (cs : List Call) (h : 0 < st.remaining)
    (hb : loop_body sdk env st r = Step.next cs st1) :
    upload_loop sdk env (r :: rs) st =
      (cs ++ (upload_loop sdk env rs st1).1, (upload_loop sdk env rs st1).2) := by
  rw [upload_loop]
  simp only [gt_iff_lt, h, if_true, hb]

theorem upload_loop_cons_ret (sdk : Sdk) (env : Env) (r : RecvResult) (rs : List RecvResult)
    (st : LoopState) (cs : List Call) (code : Int) (h : 0 < st.remaining)
    (hb : loop_body sdk env st r = Step.ret cs code) :
    upload_loop sdk env (r :: rs) st = (cs, LoopEnd.returned code) := by
  rw [upload_loop]
  simp only [gt_iff_lt, h, if_true, hb]

theorem upload_loop_append (sdk : Sdk) (env : Env) (pre : List RecvResult) :
    ∀ st, (upload_loop sdk env pre st).2 = LoopEnd.blocked →
      ∃ cs st1, 0 < st1.remaining ∧
        (upload_loop sdk env pre st).1 =
          cs ++ [Call.httpd_req_recv (min st1.remaining SCRATCH_BUFSIZE)] ∧
        ∀ post, upload_loop sdk env (pre ++ post) st =
          (cs ++ (upload_loop sdk env post st1).1, (upload_loop sdk env post st1).2) := by
  induction pre with
  | nil =>
    intro st h
    unfold upload_loop at h
    split_ifs at h with hr
    exact ⟨[], st, hr, by simp [upload_loop, hr], by simp⟩
  | cons r rs ih =>
    intro st h
    unfold upload_loop at h
    split_ifs at h with hr
    split at h
    · rename_i cs1 st1 hb
      obtain ⟨cs, st2, hpos, hcalls, happ⟩ := ih st1 h
      refine ⟨cs1 ++ cs, st2, hpos, ?_, ?_⟩
      · rw [upload_loop_cons_next sdk env r rs st st1 cs1 hr hb, hcalls, List.append_assoc]
      · intro post
        rw [List.cons_append, upload_loop_cons_next sdk env r (rs ++ post) st st1 cs1 hr hb,
          happ post, List.append_assoc]
    · simp at h

theorem upload_until_commit_blocked (sdk : Sdk) (req : Req) (env : Env)
    (h : (upload_until_commit sdk req env).2 = LoopEnd.blocked) :
    (upload_checks sdk req env).2 = none ∧
    (upload_until_commit sdk req env).1 =
      (upload_checks sdk req env).1 ++ (upload_loop sdk env env.recvs (loop_entry req)).1 ∧
    (upload_loop sdk env env.recvs (loop_entry req)).2 = LoopEnd.blocked := by
  unfold upload_until_commit at h ⊢
  split at h
  · simp at h
  · rename_i hc
    rw [hc]
    exact ⟨rfl, rfl, h⟩

theorem upload_until_commit_of_checks (sdk : Sdk) (req : Req) (env : Env)
    (h : (upload_checks sdk req env).2 = none) :
    upload_until_commit sdk req env =
      ((upload_checks sdk req env).1 ++ (upload_loop sdk env env.recvs (loop_entry req)).1,
        (upload_loop sdk env env.recvs (loop_entry req)).2) := by
  unfold upload_until_commit
  rw [h]

theorem shape_exit_blocked (sdk : Sdk) (req : Req) (env : Env) (last : Call) (ex : Exit)
    (o : Outcome) (hs : HandlerShape sdk req env last ex o) (hex : ex ≠ Exit.blocked)
    (h : o.exit = Exit.blocked) : (upload_until_commit sdk req env).2 = LoopEnd.blocked := by
  rcases hs with ⟨st, -, -, he⟩ | ⟨-, -, ⟨-, hb⟩ | ⟨he, -⟩⟩
  · rw [h] at he
    exact absurd he.symm hex
  · exact hb
  · rw [h] at he
    simp at he

theorem shape_of_returned (sdk : Sdk) (req : Req) (env : Env) (last : Call) (ex : Exit)
    (o : Outcome) (hs : HandlerShape sdk req env last ex o)
    (h : (upload_until_commit sdk req env).2 = LoopEnd.returned ESP_FAIL) :
    o.exit = Exit.returned ESP_FAIL ∧ o.calls = (upload_until_commit sdk req env).1 := by
  rcases hs with ⟨st, hf, -, -⟩ | ⟨-, hc, ⟨-, hb⟩ | ⟨he, -⟩⟩
  · rw [h] at hf
    simp at hf
  · rw [h] at hb
    simp at hb
  · exact ⟨he, hc⟩

theorem shape_of_blocked (sdk : Sdk) (req : Req) (env : Env) (last : Call) (ex : Exit)
    (o : Outcome) (hs : HandlerShape sdk req env last ex o)
    (h : (upload_until_commit sdk req env).2 = LoopEnd.blocked) :
    o.exit = Exit.blocked ∧ o.calls = (upload_until_commit sdk req env).1 := by
  rcases hs with ⟨st, hf, -, -⟩ | ⟨-, hc, ⟨he, -⟩ | ⟨-, hb⟩⟩
  · rw [h] at hf
    simp at hf
  · exact ⟨he, hc⟩
  · rw [h] at hb
    simp at hb

theorem loop_body_failure (sdk : Sdk) (env : Env) (st : LoopState) (r : RecvResult)
    (hle : r.ret ≤ 0) (hne : r.ret ≠ HTTPD_SOCK_ERR_TIMEOUT) :
    loop_body sdk env st r =
      Step.ret [Call.httpd_req_recv (min st.remaining SCRATCH_BUFSIZE),
        Call.log Log.file_reception_failed,
        Call.httpd_resp_send_err RespErr.failed_to_receive_file] ESP_FAIL := by
  unfold loop_body
  simp only [hle, hne, if_true, if_false]

/-- After the receive results `pre` have left the handler waiting for data, a receive that
fails with something other than a timeout ends the shared part with `ESP_FAIL`, the last
call being the error response. -/
theorem upload_until_commit_failure (sdk : Sdk) (req : Req) (env : Env)
    (pre post : List RecvResult) (r : RecvResult)
    (hactive : (upload_until_commit sdk req { env with recvs := pre }).2 = LoopEnd.blocked)
    (hle : r.ret ≤ 0) (hne : r.ret ≠ HTTPD_SOCK_ERR_TIMEOUT) :
    (upload_until_commit sdk req { env with recvs := pre ++ r :: post }).2 =
      LoopEnd.returned ESP_FAIL ∧
    Call.httpd_resp_send_err RespErr.failed_to_receive_file ∈
      (upload_until_commit sdk req { env with recvs := pre ++ r :: post }).1 := by
  obtain ⟨hc, -, hl⟩ := upload_until_commit_blocked sdk req _ hactive
  rw [upload_checks_recvs] at hc
  simp only [upload_loop_recvs] at hl
  obtain ⟨cs, st1, hpos, -, happ⟩ := upload_loop_append sdk env pre (loop_entry req) hl
  have hu := upload_until_commit_of_checks sdk req { env with recvs := pre ++ r :: post }
    (by rw [upload_checks_recvs]; exact hc)
  simp only [upload_loop_recvs, upload_checks_recvs] at hu
  rw [happ (r :: post), upload_loop_cons_ret sdk env r post st1 _ _ hpos
    (loop_body_failure sdk env st1 r hle hne)] at hu
  rw [hu]
  simp

theorem header_check_sim (sdk : Sdk) (env1 env2 : Env) (view : Call → Bool)
    (hp : env1.update_partition = env2.update_partition)
    (hb : env1.esp_ota_begin = env2.esp_ota_begin)
    (hv : ∀ d, (version_check sdk env1 d).filter view = (version_check sdk env2 d).filter view)
    (s t : LoopState) (r : RecvResult) (hst : SameButErr s t) :
    (header_check sdk env1 s r).1.filter view = (header_check sdk env2 t r).1.filter view ∧
    SameButErr (header_check sdk env1 s r).2 (header_check sdk env2 t r).2 := by
  obtain ⟨h1, h2, h3, h4, h5⟩ := hst
  unfold header_check
  rw [h3, hp, hb]
  split_ifs
  all_goals first
    | exact ⟨by simp only [List.filter_append, hv], h1, h2, rfl, rfl, h5⟩
    | exact ⟨by simp, h1, h2, h3, h4, h5⟩

theorem loop_body_sim (sdk : Sdk) (env1 env2 : Env) (view : Call → Bool)
    (hp : env1.update_partition = env2.update_partition)
    (hb : env1.esp_ota_begin = env2.esp_ota_begin)
    (hv : ∀ d, (version_check sdk env1 d).filter view = (version_check sdk env2 d).filter view)
    (s t : LoopState) (r : RecvResult) (hst : SameButErr s t) :
    (∃ cs1 cs2 s1 t1, loop_body sdk env1 s r = Step.next cs1 s1 ∧
        loop_body sdk env2 t r = Step.next cs2 t1 ∧
        cs1.filter view = cs2.filter view ∧ SameButErr s1 t1) ∨
    (∃ cs code, loop_body sdk env1 s r = Step.ret cs code ∧
        loop_body sdk env2 t r = Step.ret cs code) := by
  obtain ⟨hc, hs⟩ := header_check_sim sdk env1 env2 view hp hb hv s t r hst
  obtain ⟨g1, g2, g3, g4, g5⟩ := hs
  obtain ⟨h1, h2, h3, h4, h5⟩ := hst
  unfold loop_body
  simp only
  rw [h1]
  split_ifs
  · left
    exact ⟨_, _, _, _, rfl, rfl, rfl, h1, h2, h3, h4, h5⟩
  · right
    exact ⟨_, _, rfl, rfl⟩
  · left
    refine ⟨_, _, _, _, rfl, rfl, ?_, ?_⟩
    · simp only [List.filter_append, hc, g4]
    · exact ⟨by simp only [g1], by simp only [g2], g3, g4, by simp only [g5]⟩

theorem upload_loop_sim (sdk : Sdk) (env1 env2 : Env) (view : Call → Bool)
    (hp : env1.update_partition = env2.update_partition)
    (hb : env1.esp_ota_begin = env2.esp_ota_begin)
    (hv : ∀ d, (version_check sdk env1 d).filter view = (version_check sdk env2 d).filter view)
    (rs : List RecvResult) :
    ∀ s t, SameButErr s t →
      (upload_loop sdk env1 rs s).1.filter view = (upload_loop sdk env2 rs t).1.filter view ∧
      SameEnd (upload_loop sdk env1 rs s).2 (upload_loop sdk env2 rs t).2 := by
  induction rs with
  | nil =>
    intro s t hst
    unfold upload_loop
    rw [hst.1]
    split_ifs
    · exact ⟨rfl, trivial⟩
    · exact ⟨rfl, hst⟩
  | cons r rs ih =>
    intro s t hst
    by_cases hr : 0 < s.remaining
    · have hr2 : 0 < t.remaining := hst.1 ▸ hr
      rcases loop_body_sim sdk env1 env2 view hp hb hv s t r hst with
        ⟨cs1, cs2, s1, t1, e1, e2, hcs, hst1⟩ | ⟨cs, code, e1, e2⟩
      · rw [upload_loop_cons_next sdk env1 r rs s s1 cs1 hr e1,
          upload_loop_cons_next sdk env2 r rs t t1 cs2 hr2 e2]
        obtain ⟨i1, i2⟩ := ih s1 t1 hst1
        exact ⟨by simp only [List.filter_append, hcs, i1], i2⟩
      · rw [upload_loop_cons_ret sdk env1 r rs s cs code hr e1,
          upload_loop_cons_ret sdk env2 r rs t cs code hr2 e2]
        exact ⟨rfl, rfl⟩
    · have hr2 : ¬ 0 < t.remaining := hst.1 ▸ hr
      unfold upload_loop
      simp only [gt_iff_lt, hr, hr2, if_false]
      exact ⟨trivial, hst⟩

theorem upload_until_commit_sim (sdk : Sdk) (req : Req) (env1 env2 : Env) (view : Call → Bool)
    (hchk : upload_checks sdk req env1 = upload_checks sdk req env2)
    (hrecvs : env1.recvs = env2.recvs)
    (hp : env1.update_partition = env2.update_partition)
    (hb : env1.esp_ota_begin = env2.esp_ota_begin)
    (hv : ∀ d, (version_check sdk env1 d).filter view = (version_check sdk env2 d).filter view) :
    (upload_until_commit sdk req env1).1.filter view =
      (upload_until_commit sdk req env2).1.filter view ∧
    SameEnd (upload_until_commit sdk req env1).2 (upload_until_commit sdk req env2).2 := by
  unfold upload_until_commit
  rw [hchk, hrecvs]
  obtain ⟨h1, h2⟩ := upload_loop_sim sdk env1 env2 view hp hb hv env2.recvs
    (loop_entry req) (loop_entry req) ⟨rfl, rfl, rfl, rfl, rfl⟩
  split
  · exact ⟨rfl, rfl⟩
  · exact ⟨by simp only [List.filter_append, h1], h2⟩

theorem commit_calls_sim (env1 env2 : Env) (s t : LoopState) (hst : SameButErr s t)
    (hp : env1.update_partition = env2.update_partition)
    (hend : env1.esp_ota_end = env2.esp_ota_end)
    (hboot : env1.esp_ota_set_boot_partition = env2.esp_ota_set_boot_partition) :
    commit_calls env1 s = commit_calls env2 t := by
  unfold commit_calls
  rw [hst.2.1, hst.2.2.2.1, hp, hend, hboot]

theorem shape_sim (sdk : Sdk) (req : Req) (env1 env2 : Env) (view : Call → Bool)
    (last : Call) (ex : Exit) (o1 o2 : Outcome)
    (hs1 : HandlerShape sdk req env1 last ex o1) (hs2 : HandlerShape sdk req env2 last ex o2)
    (hchk : upload_checks sdk req env1 = upload_checks sdk req env2)
    (hrecvs : env1.recvs = env2.recvs)
    (hp : env1.update_partition = env2.update_partition)
    (hb : env1.esp_ota_begin = env2.esp_ota_begin)
    (hend : env1.esp_ota_end = env2.esp_ota_end)
    (hboot : env1.esp_ota_set_boot_partition = env2.esp_ota_set_boot_partition)
    (hv : ∀ d, (version_check sdk env1 d).filter view = (version_check sdk env2 d).filter view) :
    o1.calls.filter view = o2.calls.filter view ∧ o1.exit = o2.exit := by
  obtain ⟨hc, he⟩ := upload_until_commit_sim sdk req env1 env2 view hchk hrecvs hp hb hv
  rcases hs1 with ⟨s, hf1, hc1, he1⟩ | ⟨hn1, hc1, ⟨he1, hb1⟩ | ⟨he1, hb1⟩⟩ <;>
    rcases hs2 with ⟨t, hf2, hc2, he2⟩ | ⟨hn2, hc2, ⟨he2, hb2⟩ | ⟨he2, hb2⟩⟩
  · rw [hf1, hf2] at he
    rw [hc1, hc2, he1, he2, commit_calls_sim env1 env2 s t he hp hend hboot]
    exact ⟨by simp only [List.filter_append, hc], rfl⟩
  · rw [hf1, hb2] at he
    exact he.elim
  · rw [hf1, hb2] at he
    exact he.elim
  · rw [hb1, hf2] at he
    exact he.elim
  · rw [hc1, hc2, he1, he2]
    exact ⟨hc, rfl⟩
  · rw [hb1, hb2] at he
    exact he.elim
  · rw [hb1, hf2] at he
    exact he.elim
  · rw [hb1, hb2] at he
    exact he.elim
  · rw [hc1, hc2, he1, he2]
    exact ⟨hc, rfl⟩

theorem version_check_write_results (sdk : Sdk) (env : Env) (w : Nat → Int) (d : List Nat) :
    version_check sdk { env with esp_ota_write := w } d = version_check sdk env d := rfl

theorem filter_all (cs : List Call) : cs.filter (fun _ => true) = cs := by
  simp

theorem commit_calls_eq (env : Env) (st : LoopState) :
    commit_calls env st =
      Call.log (Log.total_written st.binary_file_length) :: Call.esp_ota_end st.update_handle ::
        ((if env.esp_ota_end ≠ ESP_OK then [Call.log Log.esp_ota_end_failed] else [])
          ++ Call.esp_ota_set_boot_partition env.update_partition ::
            (if env.esp_ota_set_boot_partition ≠ ESP_OK then
              [Call.log Log.esp_ota_set_boot_partition_failed] else [])) := by
  unfold commit_calls
  simp

/-- In a run of either handler `esp_ota_set_boot_partition` comes after `esp_ota_end` and
never before it, it is called whenever `esp_ota_end` is, and a failure of `esp_ota_end` is
logged. -/
theorem shape_boot_after_end (sdk : Sdk) (req : Req) (env : Env) (last : Call)
    (ex : Exit) (o : Outcome) (hs : HandlerShape sdk req env last ex o)
    (hlast : last = Call.esp_restart ∨ last = Call.http_board_restart_page) :
    (∀ p, Call.esp_ota_set_boot_partition p ∈ o.calls →
      ∃ pre post u, o.calls = pre ++ Call.esp_ota_end u :: post ∧
        Call.esp_ota_set_boot_partition p ∈ post ∧
        ∀ q, Call.esp_ota_set_boot_partition q ∉ pre) ∧
    (∀ u, Call.esp_ota_end u ∈ o.calls →
      Call.esp_ota_set_boot_partition env.update_partition ∈ o.calls) ∧
    (env.esp_ota_end ≠ ESP_OK → ∀ u, Call.esp_ota_end u ∈ o.calls →
      Call.log Log.esp_ota_end_failed ∈ o.calls) := by
  have hb := upload_until_commit_before_commit sdk req env
  rcases hs with ⟨st, -, hcalls, -⟩ | ⟨-, hcalls, -⟩
  · refine ⟨?_, ?_, ?_⟩
    · intro p hp
      have hp2 : p = env.update_partition := by
        rw [hcalls] at hp
        simp only [List.mem_append, List.mem_singleton] at hp
        rcases hp with (hp | hp) | hp
        · have := hb _ hp
          simp [Call.before_commit] at this
        · rcases mem_commit_calls env st _ hp with h | h | h | h | h <;> simp at h
          exact h
        · rcases hlast with h | h <;> rw [h] at hp <;> simp at hp
      subst hp2
      refine ⟨(upload_until_commit sdk req env).1 ++
          [Call.log (Log.total_written st.binary_file_length)],
        (if env.esp_ota_end ≠ ESP_OK then [Call.log Log.esp_ota_end_failed] else [])
          ++ Call.esp_ota_set_boot_partition env.update_partition ::
            (if env.esp_ota_set_boot_partition ≠ ESP_OK then
              [Call.log Log.esp_ota_set_boot_partition_failed] else []) ++ [last],
        st.update_handle, ?_, ?_, ?_⟩
      · rw [hcalls, commit_calls_eq]
        simp
      · simp
      · intro q hq
        simp only [List.mem_append, List.mem_singleton] at hq
        rcases hq with hq | hq
        · have := hb _ hq
          simp [Call.before_commit] at this
        · simp at hq
    · intro u _
      rw [hcalls, commit_calls_eq]
      simp
    · intro hne u _
      rw [hcalls, commit_calls_eq]
      simp [hne]
  · have hno : ∀ c ∈ o.calls, c.before_commit = true := by
      intro c hc
      rw [hcalls] at hc
      exact hb c hc
    refine ⟨?_, ?_, ?_⟩
    · intro p hp
      have := hno _ hp
      simp [Call.before_commit] at this
    · intro u hu
      have := hno _ hu
      simp [Call.before_commit] at this
    · intro _ u hu
      have := hno _ hu
      simp [Call.before_commit] at this

/-- In a run of either handler the closing call is made exactly when `esp_ota_end` has been
called, after `esp_ota_end` and `esp_ota_set_boot_partition`, and the run then ends in `ex`;
a run without `esp_ota_end` ends blocked or with `ESP_FAIL`. -/
theorem shape_closing_call (sdk : Sdk) (req : Req) (env : Env) (last : Call)
    (ex : Exit) (o : Outcome) (hs : HandlerShape sdk req env last ex o)
    (hlast : last = Call.esp_restart ∨ last = Call.http_board_restart_page) :
    (last ∈ o.calls →
      ∃ pre, o.calls = pre ++ [last] ∧ last ∉ pre ∧
        (∃ u, Call.esp_ota_end u ∈ pre) ∧
        Call.esp_ota_set_boot_partition env.update_partition ∈ pre) ∧
    ((∃ u, Call.esp_ota_end u ∈ o.calls) → last ∈ o.calls ∧ o.exit = ex) ∧
    ((∀ u, Call.esp_ota_end u ∉ o.calls) →
      last ∉ o.calls ∧ (o.exit = Exit.blocked ∨ o.exit = Exit.returned ESP_FAIL)) ∧
    (∀ c ∈ o.calls, c = Call.esp_restart ∨ c = Call.http_board_restart_page → c = last) := by
  have hb := upload_until_commit_before_commit sdk req env
  have hlast_bc : last.before_commit = false := by
    rcases hlast with h | h <;> rw [h] <;> rfl
  have hlast_cc : ∀ st, last ∉ commit_calls env st := by
    intro st hmem
    rcases mem_commit_calls env st _ hmem with h | h | h | h | h <;>
      rcases hlast with g | g <;> rw [g] at h <;> simp at h
  rcases hs with ⟨st, -, hcalls, hex⟩ | ⟨-, hcalls, hex⟩
  · refine ⟨?_, ?_, ?_, ?_⟩
    · intro _
      refine ⟨(upload_until_commit sdk req env).1 ++ commit_calls env st, hcalls, ?_,
        ⟨st.update_handle, ?_⟩, ?_⟩
      · intro hmem
        simp only [List.mem_append] at hmem
        rcases hmem with hmem | hmem
        · have := hb _ hmem
          rw [hlast_bc] at this
          simp at this
        · exact hlast_cc st hmem
      · rw [commit_calls_eq]; simp
      · rw [commit_calls_eq]; simp
    · intro _
      exact ⟨by rw [hcalls]; simp, hex⟩
    · intro hno
      exact absurd (by rw [hcalls, commit_calls_eq]; simp) (hno st.update_handle)
    · intro c hc hcase
      rw [hcalls] at hc
      simp only [List.mem_append, List.mem_singleton] at hc
      rcases hc with (hc | hc) | hc
      · have := hb _ hc
        rcases hcase with h | h <;> rw [h] at this <;> simp [Call.before_commit] at this
      · rcases mem_commit_calls env st _ hc with h | h | h | h | h <;>
          rcases hcase with g | g <;> rw [g] at h <;> simp at h
      · exact hc
  · have hno : ∀ c ∈ o.calls, c.before_commit = true := by
      intro c hc
      rw [hcalls] at hc
      exact hb c hc
    have hl : last ∉ o.calls := by
      intro hmem
      have := hno _ hmem
      rw [hlast_bc] at this
      simp at this
    refine ⟨fun h => absurd h hl, ?_, ?_, ?_⟩
    · rintro ⟨u, hu⟩
      have := hno _ hu
      simp [Call.before_commit] at this
    · intro _
      exact ⟨hl, by rcases hex with ⟨h, -⟩ | ⟨h, -⟩ <;> simp [h]⟩
    · intro c hc hcase
      have := hno _ hc
      rcases hcase with h | h <;> rw [h] at this <;> simp [Call.before_commit] at this

theorem memcmp_eq_zero_iff (n : Nat) : ∀ a b : List Nat,
    memcmp a b n = 0 ↔ ∀ i, i < n → a.getD i 0 = b.getD i 0 := by
  induction n with
  | zero => intro a b; simp [memcmp]
  | succ n ih =>
    intro a b
    have ha : ∀ i, a.getD (i + 1) 0 = a.tail.getD i 0 := by
      intro i; cases a <;> simp
    have hb : ∀ i, b.getD (i + 1) 0 = b.tail.getD i 0 := by
      intro i; cases b <;> simp
    have ha0 : a.getD 0 0 = a.headD 0 := by cases a <;> simp
    have hb0 : b.getD 0 0 = b.headD 0 := by cases b <;> simp
    unfold memcmp
    split_ifs with h
    · rw [ih]
      constructor
      · intro hall i hi
        cases i with
        | zero => rw [ha0, hb0]; exact h
        | succ j => rw [ha, hb]; exact hall j (by omega)
      · intro hall i hi
        rw [← ha, ← hb]
        exact hall (i + 1) (by omega)
    · constructor
      · intro h0
        exact absurd (by omega) h
      · intro hall
        have := hall 0 (by omega)
        rw [ha0, hb0] at this
        exact absurd this h

theorem version_check_eq (sdk : Sdk) (env : Env) (d : List Nat) :
    version_check sdk env d =
      (if env.last_invalid_app ≠ none ∧
          memcmp (version sdk env.invalid_app_info.2) (version sdk (new_app_info sdk d))
            sdk.sizeof_version = 0
        then [Call.log Log.same_as_invalid_version] else []) ++
      (if memcmp (version sdk (new_app_info sdk d)) (version sdk env.running_app_info.2)
            sdk.sizeof_version = 0
        then [Call.log Log.same_as_running_version] else []) := by
  unfold version_check
  by_cases h1 : env.last_invalid_app = none <;>
    by_cases h2 : memcmp (version sdk env.invalid_app_info.2)
      (version sdk (new_app_info sdk d)) sdk.sizeof_version = 0 <;>
    simp [h1, h2]

theorem version_check_filter_is_ota (sdk : Sdk) (env : Env) (d : List Nat) :
    (version_check sdk env d).filter Call.is_ota = [] := by
  rw [version_check_eq]
  split_ifs <;> rfl

theorem version_check_filter_not_warning (sdk : Sdk) (env : Env) (d : List Nat) :
    (version_check sdk env d).filter Call.not_version_warning = [] := by
  rw [version_check_eq]
  split_ifs <;> rfl

theorem upload_checks_frame (sdk : Sdk) (req : Req) (env1 env2 : Env)
    (hc : env1.configured = env2.configured) (hr : env1.running = env2.running)
    (hs : env1.stat = env2.stat) : upload_checks sdk req env1 = upload_checks sdk req env2 := by
  unfold upload_checks
  rw [hc, hr, hs]

theorem start_server_guard (sdk : Sdk) (env : ServerEnv) (server_data : Option (List Char))
    (h : server_data ≠ none) :
    start_server sdk (some "/spiffs".toList) env server_data =
      { server_data := server_data, calls := [ServerCall.log ServerLog.already_started],
        ret := ESP_ERR_INVALID_STATE } := by
  unfold start_server
  simp [h]

theorem start_server_ok (sdk : Sdk) (base_path : Option (List Char)) (env : ServerEnv)
    (server_data : Option (List Char))
    (h : (start_server sdk base_path env server_data).ret = ESP_OK) :
    (start_server sdk base_path env server_data).server_data ≠ none := by
  unfold start_server at h ⊢
  split at h
  · simp [ESP_ERR_INVALID_ARG, ESP_OK] at h
  · split_ifs at h ⊢ <;> simp_all [ESP_ERR_INVALID_ARG, ESP_ERR_INVALID_STATE, ESP_ERR_NO_MEM,
      ESP_FAIL, ESP_OK]

theorem shape_first_receive (sdk : Sdk) (req : Req) (env : Env) (last : Call) (ex : Exit)
    (o : Outcome) (hs : HandlerShape sdk req env last ex o)
    (hpass : (upload_checks sdk req env).2 = none) (hlen : 0 < req.content_len) :
    ∃ tl, o.calls = (upload_checks sdk req env).1 ++
      Call.httpd_req_recv (min (req.content_len : Int) SCRATCH_BUFSIZE) :: tl := by
  have hu := upload_until_commit_of_checks sdk req env hpass
  obtain ⟨tl, htl⟩ := upload_loop_head sdk env env.recvs (loop_entry req)
    (by simp [loop_entry, hlen])
  have hrem : (loop_entry req).remaining = (req.content_len : Int) := rfl
  rw [hrem] at htl
  rcases hs with ⟨st, -, hcalls, -⟩ | ⟨-, hcalls, -⟩
  · exact ⟨tl ++ commit_calls env st ++ [last], by rw [hcalls, hu, htl]; simp⟩
  · exact ⟨tl, by rw [hcalls, hu, htl]⟩

theorem strchr_cons (a c : Char) (s : List Char) :
    strchr (a :: s) c = if a = c then some 0 else (strchr s c).map (· + 1) := by
  unfold strchr
  by_cases h : a = c
  · subst h
    simp [List.indexOf_cons]
  · simp only [List.indexOf_cons, h, if_false, List.length_cons]
    have hb : (a == c) = false := by simpa using h
    simp only [hb, cond_false]
    split_ifs with h1 h2 h2
    · simp
    · omega
    · omega
    · simp

theorem code_pathlen_cons (a : Char) (s : List Char) :
    code_pathlen (a :: s) = if a = '?' ∨ a = '#' then 0 else code_pathlen s + 1 := by
  unfold code_pathlen
  simp only [strchr_cons, List.length_cons]
  by_cases h1 : a = '?'
  · subst h1
    simp only [if_true, true_or]
    have : ('?' : Char) ≠ '#' := by decide
    simp only [this, if_false]
    cases strchr s '#' <;> simp
  · by_cases h2 : a = '#'
    · subst h2
      simp
    · simp only [h1, h2, if_false, or_self]
      rcases strchr s '?' with _ | q <;> rcases strchr s '#' with _ | h <;>
        simp only [Option.map_none', Option.map_some', Nat.add_min_add_right]

theorem code_pathlen_eq_spec (uri : List Char) : code_pathlen uri = spec_pathlen uri := by
  induction uri with
  | nil => simp [code_pathlen, spec_pathlen, strchr]
  | cons a s ih =>
    rw [code_pathlen_cons]
    unfold spec_pathlen at ih ⊢
    rw [List.takeWhile_cons]
    by_cases h1 : a = '?'
    · subst h1
      simp
    · by_cases h2 : a = '#'
      · subst h2
        simp
      · have : (a != '?' && a != '#') = true := by simp [h1, h2]
        simp only [h1, h2, or_self, if_false, this, if_true, List.length_cons, ih]

theorem spec_pathlen_le (uri : List Char) : spec_pathlen uri ≤ uri.length := by
  unfold spec_pathlen
  exact (List.takeWhile_sublist _).length_le

theorem get_path_from_uri_eq (dest base_path uri : List Char) (destsize : Nat) :
    get_path_from_uri dest base_path uri destsize =
      if base_path.length + code_pathlen uri + 1 > destsize then
        { dest := dest, path := none }
      else
        { dest := store (store dest 0 (base_path ++ ['\x00'])) base_path.length
            (uri.take (code_pathlen uri) ++ ['\x00']),
          path := some base_path.length } := rfl

theorem takeWhile_not_nul (s rest : List Char) (h : '\x00' ∉ s) :
    (s ++ '\x00' :: rest).takeWhile (fun c => c != '\x00') = s := by
  induction s with
  | nil => simp
  | cons a s ih =>
    simp only [List.mem_cons, not_or] at h
    have ha : (a != '\x00') = true := by
      simp only [bne_iff_ne, ne_eq]
      exact fun e => h.1 e.symm
    rw [List.cons_append, List.takeWhile_cons, ha]
    simp only [if_true, ih h.2]

theorem store_twice (dest base path : List Char) :
    store (store dest 0 (base ++ ['\x00'])) base.length (path ++ ['\x00']) =
      base ++ path ++ ['\x00'] ++ dest.drop (base.length + path.length + 1) := by
  unfold store
  simp only [List.take_zero, List.nil_append, Nat.zero_add, List.length_append,
    List.length_singleton, List.append_assoc]
  have h1 : (base ++ (['\x00'] ++ List.drop (base.length + 1) dest)).take base.length = base := by
    rw [List.take_append_of_le_length (le_refl _), List.take_length]
  have h2 : (base ++ (['\x00'] ++ List.drop (base.length + 1) dest)).drop
      (base.length + (path.length + 1)) = dest.drop (base.length + path.length + 1) := by
    rw [List.drop_append, List.singleton_append, List.drop_succ_cons, List.drop_drop]
    congr 1
    omega
  rw [h1, h2]

theorem split_left {α : Type} (P : α → Prop) (l1 l2 pre post : List α) (b : α)
    (h : l1 ++ l2 = pre ++ b :: post) (hb : P b) (h1 : ∀ x ∈ l1, ¬ P x) :
    ∃ mid, pre = l1 ++ mid ∧ l2 = mid ++ b :: post := by
  rcases List.append_eq_append_iff.mp h with ⟨a, ha1, ha2⟩ | ⟨c, hc1, hc2⟩
  · exact ⟨a, ha1, ha2⟩
  · cases c with
    | nil =>
      refine ⟨[], by simpa using hc1.symm, by simpa using hc2.symm⟩
    | cons x c =>
      simp only [List.cons_append, List.cons.injEq] at hc2
      have : b ∈ l1 := by rw [hc1, ← hc2.1]; simp
      exact absurd hb (h1 b this)

theorem split_unique {α : Type} (P : α → Prop) (l1 l2 pre post : List α) (a b : α)
    (h : l1 ++ a :: l2 = pre ++ b :: post) (hb : P b)
    (h1 : ∀ x ∈ l1, ¬ P x) (h2 : ∀ x ∈ l2, ¬ P x) : post = l2 := by
  obtain ⟨mid, -, hmid⟩ := split_left P l1 (a :: l2) pre post b h hb h1
  cases mid with
  | nil =>
    simp only [List.nil_append, List.cons.injEq] at hmid
    exact hmid.2.symm
  | cons x mid =>
    simp only [List.cons_append, List.cons.injEq] at hmid
    have : b ∈ l2 := by rw [hmid.2]; simp
    exact absurd hb (h2 b this)

theorem version_check_no_begin (sdk : Sdk) (env : Env) (d : List Nat) :
    ∀ c ∈ version_check sdk env d, c.is_begin = false := by
  intro c hc
  rcases version_check_mem sdk env d c hc with h | h <;> subst h <;> rfl

theorem header_check_checked (sdk : Sdk) (env : Env) (st : LoopState) (r : RecvResult)
    (h : st.image_header_was_checked = true) : header_check sdk env st r = ([], st) := by
  unfold header_check
  simp [h]

theorem header_check_short (sdk : Sdk) (env : Env) (st : LoopState) (r : RecvResult)
    (h : st.image_header_was_checked = false) (hw : r.ret ≤ (sdk.header_window : Int)) :
    header_check sdk env st r = ([Call.log Log.not_fit_len], st) := by
  unfold header_check
  have : ¬ r.ret > (sdk.header_window : Int) := by omega
  simp [h, this]

theorem header_check_long (sdk : Sdk) (env : Env) (st : LoopState) (r : RecvResult)
    (h : st.image_header_was_checked = false) (hw : (sdk.header_window : Int) < r.ret) :
    header_check sdk env st r =
      (version_check sdk env r.data ++ [Call.esp_ota_begin env.update_partition] ++
        (if env.esp_ota_begin.1 ≠ ESP_OK then [Call.log Log.esp_ota_begin_failed] else []),
       { st with
          image_header_was_checked := true
          err := env.esp_ota_begin.1
          update_handle := env.esp_ota_begin.2 }) := by
  unfold header_check
  have : r.ret > (sdk.header_window : Int) := hw
  simp [h, this]

theorem loop_body_data (sdk : Sdk) (env : Env) (st : LoopState) (r : RecvResult)
    (h : 0 < r.ret) :
    loop_body sdk env st r =
      Step.next
        ([Call.httpd_req_recv (min st.remaining SCRATCH_BUFSIZE)] ++
          (header_check sdk env st r).1 ++
          [Call.esp_ota_write (header_check sdk env st r).2.update_handle
            (r.data.take r.ret.toNat) r.ret])
        { (header_check sdk env st r).2 with
          err := env.esp_ota_write (header_check sdk env st r).2.writes
          writes := (header_check sdk env st r).2.writes + 1
          remaining := (header_check sdk env st r).2.remaining - r.ret
          binary_file_length := (header_check sdk env st r).2.binary_file_length + r.ret } := by
  unfold loop_body
  have : ¬ r.ret ≤ 0 := by omega
  simp only [this, if_false]

theorem loop_body_timeout (sdk : Sdk) (env : Env) (st : LoopState) (r : RecvResult)
    (h : r.ret = HTTPD_SOCK_ERR_TIMEOUT) :
    loop_body sdk env st r =
      Step.next [Call.httpd_req_recv (min st.remaining SCRATCH_BUFSIZE)] st := by
  unfold loop_body
  have hle : r.ret ≤ 0 := by rw [h]; decide
  simp only
  rw [if_pos hle, if_pos h]

/-- One pass of the loop body that does not return either makes no `esp_ota_begin` and
keeps `image_header_was_checked`, making no examining call at all when the flag is set; or
it finds the flag unset and a chunk longer than the header window, makes its one
`esp_ota_begin`, sets the flag, and makes no examining call after `esp_ota_begin`. -/
theorem loop_body_next_cases (sdk : Sdk) (env : Env) (st st1 : LoopState) (r : RecvResult)
    (cs : List Call) (h : loop_body sdk env st r = Step.next cs st1) :
    ((∀ c ∈ cs, c.is_begin = false) ∧
      st1.image_header_was_checked = st.image_header_was_checked ∧
      (st.image_header_was_checked = true → ∀ c ∈ cs, c.examines_header = false)) ∨
    (st.image_header_was_checked = false ∧ st1.image_header_was_checked = true ∧
      (sdk.header_window : Int) < r.ret ∧
      ∃ l1 l2, cs = l1 ++ Call.esp_ota_begin env.update_partition :: l2 ∧
        (∀ c ∈ l1, c.is_begin = false) ∧ (∀ c ∈ l2, c.examines_header = false)) := by
  by_cases hpos : 0 < r.ret
  · rw [loop_body_data sdk env st r hpos] at h
    simp only [Step.next.injEq] at h
    obtain ⟨rfl, rfl⟩ := h
    by_cases hf : st.image_header_was_checked = false
    · by_cases hw : (sdk.header_window : Int) < r.ret
      · right
        rw [header_check_long sdk env st r hf hw]
        refine ⟨hf, rfl, hw,
          [Call.httpd_req_recv (min st.remaining SCRATCH_BUFSIZE)] ++
            version_check sdk env r.data,
          (if env.esp_ota_begin.1 ≠ ESP_OK then [Call.log Log.esp_ota_begin_failed] else []) ++
            [Call.esp_ota_write env.esp_ota_begin.2 (r.data.take r.ret.toNat) r.ret],
          by simp, ?_, ?_⟩
        · intro c hc
          simp only [List.mem_append, List.mem_singleton] at hc
          rcases hc with hc | hc
          · subst hc; rfl
          · exact version_check_no_begin sdk env r.data c hc
        · intro c hc
          simp only [List.mem_append, List.mem_singleton] at hc
          rcases hc with hc | hc
          · split_ifs at hc <;> simp at hc
            subst hc; rfl
          · subst hc; rfl
      · left
        rw [header_check_short sdk env st r hf (by omega)]
        refine ⟨?_, rfl, fun hc => ?_⟩
        · intro c hc
          simp at hc
          rcases hc with hc | hc | hc <;> subst hc <;> rfl
        · rw [hf] at hc
          exact absurd hc (by decide)
    · left
      have ht : st.image_header_was_checked = true := by simpa using hf
      rw [header_check_checked sdk env st r ht]
      refine ⟨?_, rfl, fun _ => ?_⟩
      · intro c hc
        simp at hc
        rcases hc with hc | hc <;> subst hc <;> rfl
      · intro c hc
        simp at hc
        rcases hc with hc | hc <;> subst hc <;> rfl
  · unfold loop_body at h
    have hle : r.ret ≤ 0 := by omega
    simp only [hle, if_true] at h
    split_ifs at h
    simp only [Step.next.injEq] at h
    obtain ⟨rfl, rfl⟩ := h
    left
    exact ⟨by simp [Call.is_begin], rfl, fun _ => by simp [Call.examines_header]⟩

theorem examines_of_is_begin (c : Call) (h : c.is_begin = true) : c.examines_header = true := by
  cases c <;> simp_all [Call.is_begin, Call.examines_header]

theorem upload_loop_checked_quiet (sdk : Sdk) (env : Env) (rs : List RecvResult) :
    ∀ st, st.image_header_was_checked = true →
      ∀ c ∈ (upload_loop sdk env rs st).1, c.examines_header = false := by
  induction rs with
  | nil =>
    intro st _ c hc
    unfold upload_loop at hc
    split_ifs at hc <;> simp at hc
    subst hc; rfl
  | cons r rs ih =>
    intro st hst c hc
    by_cases hr : 0 < st.remaining
    · rcases hb : loop_body sdk env st r with ⟨cs, st1⟩ | ⟨cs, code⟩
      · rw [upload_loop_cons_next sdk env r rs st st1 cs hr hb] at hc
        simp only [List.mem_append] at hc
        rcases loop_body_next_cases sdk env st st1 r cs hb with ⟨-, h2, h3⟩ | ⟨h1, -⟩
        · rcases hc with hc | hc
          · exact h3 hst c hc
          · exact ih st1 (h2.trans hst) c hc
        · rw [hst] at h1
          exact absurd h1 (by decide)
      · rw [upload_loop_cons_ret sdk env r rs st cs code hr hb] at hc
        obtain ⟨-, rfl, -, -⟩ := loop_body_ret_eq sdk env st r cs code hb
        simp at hc
        rcases hc with hc | hc | hc <;> subst hc <;> rfl
    · unfold upload_loop at hc
      simp only [gt_iff_lt, hr, if_false] at hc
      simp at hc

theorem upload_loop_after_begin (sdk : Sdk) (env : Env) (rs : List RecvResult) :
    ∀ st pre post p, (upload_loop sdk env rs st).1 = pre ++ Call.esp_ota_begin p :: post →
      ∀ c ∈ post, c.examines_header = false := by
  induction rs with
  | nil =>
    intro st pre post p h
    have hm : Call.esp_ota_begin p ∈ (upload_loop sdk env [] st).1 := by rw [h]; simp
    unfold upload_loop at hm
    split_ifs at hm <;> simp at hm
  | cons r rs ih =>
    intro st pre post p h
    by_cases hr : 0 < st.remaining
    · rcases hb : loop_body sdk env st r with ⟨cs, st1⟩ | ⟨cs, code⟩
      · rw [upload_loop_cons_next sdk env r rs st st1 cs hr hb] at h
        simp only at h
        rcases loop_body_next_cases sdk env st st1 r cs hb with
          ⟨h1, -, -⟩ | ⟨-, h2, -, l1, l2, hcs, hl1, hl2⟩
        · obtain ⟨mid, -, hmid⟩ := split_left (fun c => c.is_begin = true) cs _ pre post _ h rfl
            (fun x hx hbx => by
              have e : x.is_begin = true := hbx
              rw [h1 x hx] at e
              exact absurd e (by decide))
          exact ih st1 mid post p hmid
        · have hq := upload_loop_checked_quiet sdk env rs st1 h2
          rw [hcs, List.append_assoc, List.cons_append] at h
          have hpost := split_unique (fun c => c.is_begin = true) l1
            (l2 ++ (upload_loop sdk env rs st1).1) pre post _ _ h rfl
            (fun x hx hbx => by
              have e : x.is_begin = true := hbx
              rw [hl1 x hx] at e
              exact absurd e (by decide))
            (fun x hx hbx => by
              have hex := examines_of_is_begin x hbx
              rcases List.mem_append.mp hx with hx | hx
              · rw [hl2 x hx] at hex; exact absurd hex (by decide)
              · rw [hq x hx] at hex; exact absurd hex (by decide))
          intro c hc
          rw [hpost] at hc
          rcases List.mem_append.mp hc with hc | hc
          · exact hl2 c hc
          · exact hq c hc
      · rw [upload_loop_cons_ret sdk env r rs st cs code hr hb] at h
        obtain ⟨-, rfl, -, -⟩ := loop_body_ret_eq sdk env st r cs code hb
        simp only at h
        have hm : Call.esp_ota_begin p ∈ [Call.httpd_req_recv (min st.remaining SCRATCH_BUFSIZE),
            Call.log Log.file_reception_failed,
            Call.httpd_resp_send_err RespErr.failed_to_receive_file] := by
          rw [h]; simp
        simp at hm
    · have hm : Call.esp_ota_begin p ∈ (upload_loop sdk env (r :: rs) st).1 := by rw [h]; simp
      unfold upload_loop at hm
      simp only [gt_iff_lt, hr, if_false] at hm
      simp at hm

/-- In a run of either handler no call made after `esp_ota_begin` examines a chunk for the
image header. -/
theorem shape_after_begin (sdk : Sdk) (req : Req) (env : Env) (last : Call) (ex : Exit)
    (o : Outcome) (hs : HandlerShape sdk req env last ex o)
    (hlast : last = Call.esp_restart ∨ last = Call.http_board_restart_page)
    (pre post : List Call) (p : Nat) (h : o.calls = pre ++ Call.esp_ota_begin p :: post) :
    ∀ c ∈ post, c.examines_header = false := by
  have hchk : ∀ x ∈ (upload_checks sdk req env).1, ¬ (x.is_begin = true) := by
    intro x hx hbx
    have := (upload_checks_report sdk req env x hx).1
    cases x <;> simp_all [Call.is_begin, Call.is_report]
  have htail : ∀ st, ∀ x ∈ commit_calls env st ++ [last], x.examines_header = false := by
    intro st x hx
    simp only [List.mem_append, List.mem_singleton] at hx
    rcases hx with hx | hx
    · rcases mem_commit_calls env st _ hx with g | g | g | g | g <;> subst g <;> rfl
    · rcases hlast with g | g <;> rw [hx, g] <;> rfl
  -- the calls of the shared part, split at the checks
  have hloop : ∀ (tail : List Call), (∀ x ∈ tail, x.examines_header = false) →
      (upload_until_commit sdk req env).1 ++ tail = pre ++ Call.esp_ota_begin p :: post →
      ∀ c ∈ post, c.examines_header = false := by
    intro tail htl heq c hc
    unfold upload_until_commit at heq
    split at heq
    · -- the checks returned: no esp_ota_begin anywhere
      have hm : Call.esp_ota_begin p ∈ (upload_checks sdk req env).1 ++ tail := by
        rw [heq]; simp
      rcases List.mem_append.mp hm with hm | hm
      · exact absurd rfl (hchk _ hm)
      · have := htl _ hm
        simp [Call.examines_header] at this
    · simp only [List.append_assoc] at heq
      obtain ⟨mid, -, hmid⟩ := split_left (fun c => c.is_begin = true) _ _ pre post _ heq rfl hchk
      rcases List.append_eq_append_iff.mp hmid with ⟨a, ha1, ha2⟩ | ⟨b, hb1, hb2⟩
      · -- esp_ota_begin lies in the tail: impossible
        have hm : Call.esp_ota_begin p ∈ tail := by rw [ha2]; simp
        have := htl _ hm
        simp [Call.examines_header] at this
      · cases b with
        | nil =>
          have hm : Call.esp_ota_begin p ∈ tail := by
            simp only [List.nil_append] at hb2
            rw [← hb2]; simp
          have := htl _ hm
          simp [Call.examines_header] at this
        | cons x b =>
          simp only [List.cons_append, List.cons.injEq] at hb2
          obtain ⟨hx, hpost⟩ := hb2
          subst hx
          rw [hpost] at hc
          rcases List.mem_append.mp hc with hc | hc
          · exact upload_loop_after_begin sdk env env.recvs (loop_entry req) mid b p hb1 c hc
          · exact htl c hc
  rcases hs with ⟨st, -, hcalls, -⟩ | ⟨-, hcalls, -⟩
  · rw [hcalls, List.append_assoc] at h
    exact hloop _ (htail st) h
  · rw [hcalls] at h
    exact hloop [] (by simp) (by simpa using h)

theorem write_data_append (l1 l2 : List Call) :
    write_data (l1 ++ l2) = write_data l1 ++ write_data l2 := by
  induction l1 with
  | nil => rfl
  | cons c l1 ih => cases c <;> simp [write_data, ih]

theorem written_to_append (h : Nat) (l1 l2 : List Call) :
    written_to h (l1 ++ l2) = written_to h l1 ++ written_to h l2 := by
  induction l1 with
  | nil => rfl
  | cons c l1 ih =>
    cases c <;> simp only [List.cons_append, written_to] <;> (try split_ifs) <;> simp [ih]

theorem write_data_of_no_write (l : List Call) (h : ∀ c ∈ l, c.is_write = false) :
    write_data l = [] := by
  induction l with
  | nil => rfl
  | cons c l ih =>
    have hc := h c (by simp)
    have hl := ih (fun x hx => h x (by simp [hx]))
    cases c <;> simp_all [write_data, Call.is_write]

theorem written_to_eq_write_data (h : Nat) (l : List Call)
    (hl : ∀ u d n, Call.esp_ota_write u d n ∈ l → u = h) : written_to h l = write_data l := by
  induction l with
  | nil => rfl
  | cons c l ih =>
    have hrest := ih (fun u d n hm => hl u d n (by simp [hm]))
    cases c <;> simp only [written_to, write_data, hrest]
    rename_i u d n
    have := hl u d n (by simp)
    simp [this]

theorem written_to_of_other_handle (h : Nat) (l : List Call)
    (hl : ∀ u d n, Call.esp_ota_write u d n ∈ l → u ≠ h) : written_to h l = [] := by
  induction l with
  | nil => rfl
  | cons c l ih =>
    have hrest := ih (fun u d n hm => hl u d n (by simp [hm]))
    cases c <;> simp only [written_to, hrest]
    rename_i u d n
    have := hl u d n (by simp)
    simp [this]

theorem upload_checks_no_write (sdk : Sdk) (req : Req) (env : Env) :
    ∀ c ∈ (upload_checks sdk req env).1, c.is_write = false := by
  intro c hc
  have := (upload_checks_report sdk req env c hc).1
  cases c <;> simp_all [Call.is_write, Call.is_report]

theorem commit_calls_no_write (env : Env) (st : LoopState) :
    ∀ c ∈ commit_calls env st, c.is_write = false := by
  intro c hc
  rcases mem_commit_calls env st c hc with g | g | g | g | g <;> subst g <;> rfl

theorem header_check_no_write (sdk : Sdk) (env : Env) (st : LoopState) (r : RecvResult) :
    ∀ c ∈ (header_check sdk env st r).1, c.is_write = false := by
  intro c hc
  unfold header_check at hc
  split_ifs at hc <;> simp at hc <;> (try casesm* _ ∨ _) <;> subst_vars <;>
    (try rfl) <;>
    (rcases version_check_mem sdk env r.data c (by assumption) with h | h <;> subst h <;> rfl)

/-- A pass of the loop body that does not return is a timeout, which changes nothing, or the
pass for a positive `data_read`. -/
theorem loop_body_next_inv (sdk : Sdk) (env : Env) (st st1 : LoopState) (r : RecvResult)
    (cs : List Call) (h : loop_body sdk env st r = Step.next cs st1) :
    (r.ret ≤ 0 ∧ cs = [Call.httpd_req_recv (min st.remaining SCRATCH_BUFSIZE)] ∧ st1 = st) ∨
    (0 < r.ret ∧
      cs = [Call.httpd_req_recv (min st.remaining SCRATCH_BUFSIZE)] ++
        (header_check sdk env st r).1 ++
        [Call.esp_ota_write (header_check sdk env st r).2.update_handle
          (r.data.take r.ret.toNat) r.ret] ∧
      st1.remaining = st.remaining - r.ret ∧
      st1.binary_file_length = st.binary_file_length + r.ret ∧
      st1.image_header_was_checked = (header_check sdk env st r).2.image_header_was_checked ∧
      st1.update_handle = (header_check sdk env st r).2.update_handle) := by
  by_cases hpos : 0 < r.ret
  · right
    rw [loop_body_data sdk env st r hpos] at h
    simp only [Step.next.injEq] at h
    obtain ⟨rfl, rfl⟩ := h
    obtain ⟨f1, f2, -⟩ := header_check_frame sdk env st r
    exact ⟨hpos, rfl, by simp only [f1], by simp only [f2], rfl, rfl⟩
  · left
    unfold loop_body at h
    have hle : r.ret ≤ 0 := by omega
    simp only [hle, if_true] at h
    split_ifs at h
    simp only [Step.next.injEq] at h
    obtain ⟨rfl, rfl⟩ := h
    exact ⟨hle, rfl, rfl⟩

/-- Once `image_header_was_checked` is set, every `esp_ota_write` of the loop uses the
current `update_handle`. -/
theorem upload_loop_checked_handle (sdk : Sdk) (env : Env) (rs : List RecvResult) :
    ∀ st, st.image_header_was_checked = true →
      ∀ u d n, Call.esp_ota_write u d n ∈ (upload_loop sdk env rs st).1 →
        u = st.update_handle := by
  induction rs with
  | nil =>
    intro st _ u d n hm
    unfold upload_loop at hm
    split_ifs at hm <;> simp at hm
  | cons r rs ih =>
    intro st hst u d n hm
    by_cases hr : 0 < st.remaining
    · rcases hb : loop_body sdk env st r with ⟨cs, st1⟩ | ⟨cs, code⟩
      · rw [upload_loop_cons_next sdk env r rs st st1 cs hr hb] at hm
        simp only [List.mem_append] at hm
        rcases loop_body_next_inv sdk env st st1 r cs hb with
          ⟨-, hcs, hst1⟩ | ⟨-, hcs, -, -, hc1, hh1⟩
        · rcases hm with hm | hm
          · rw [hcs] at hm; simp at hm
          · rw [hst1] at hm
            exact ih st hst u d n hm
        · rw [header_check_checked sdk env st r hst] at hcs hc1 hh1
          simp only at hcs hc1 hh1
          rcases hm with hm | hm
          · rw [hcs] at hm
            simp at hm
            exact hm.1
          · rw [← hh1]
            exact ih st1 (hc1.trans hst) u d n hm
      · rw [upload_loop_cons_ret sdk env r rs st cs code hr hb] at hm
        obtain ⟨-, rfl, -, -⟩ := loop_body_ret_eq sdk env st r cs code hb
        simp at hm
    · unfold upload_loop at hm
      simp only [gt_iff_lt, hr, if_false] at hm
      simp at hm

/-- While every received chunk is at most the header window long and the flag is unset,
the loop never calls `esp_ota_begin`, every `esp_ota_write` uses the `update_handle`
the loop was entered with, and the loop is left with that handle. -/
theorem upload_loop_short (sdk : Sdk) (env : Env) (rs : List RecvResult)
    (hshort : ∀ r ∈ rs, r.ret ≤ (sdk.header_window : Int)) :
    ∀ st, st.image_header_was_checked = false →
      (∀ p, Call.esp_ota_begin p ∉ (upload_loop sdk env rs st).1) ∧
      (∀ u d n, Call.esp_ota_write u d n ∈ (upload_loop sdk env rs st).1 →
        u = st.update_handle) ∧
      (∀ st1, (upload_loop sdk env rs st).2 = LoopEnd.finished st1 →
        st1.update_handle = st.update_handle) := by
  induction rs with
  | nil =>
    intro st _
    unfold upload_loop
    split_ifs <;> simp
  | cons r rs ih =>
    intro st hst
    have hrs : ∀ x ∈ rs, x.ret ≤ (sdk.header_window : Int) :=
      fun x hx => hshort x (by simp [hx])
    have hr0 := hshort r (by simp)
    by_cases hr : 0 < st.remaining
    · rcases hb : loop_body sdk env st r with ⟨cs, st1⟩ | ⟨cs, code⟩
      · rw [upload_loop_cons_next sdk env r rs st st1 cs hr hb]
        rcases loop_body_next_inv sdk env st st1 r cs hb with
          ⟨-, hcs, hst1⟩ | ⟨-, hcs, -, -, hc1, hh1⟩
        · subst hst1
          obtain ⟨i1, i2, i3⟩ := ih hrs st1 hst
          rw [hcs]
          refine ⟨?_, ?_, i3⟩
          · intro p hm
            simp at hm
            exact i1 p hm
          · intro u d n hm
            simp at hm
            exact i2 u d n hm
        · rw [header_check_short sdk env st r hst hr0] at hcs hc1 hh1
          simp only at hcs hc1 hh1
          obtain ⟨i1, i2, i3⟩ := ih hrs st1 (hc1.trans hst)
          rw [hcs]
          refine ⟨?_, ?_, ?_⟩
          · intro p hm
            simp at hm
            exact i1 p hm
          · intro u d n hm
            simp at hm
            rcases hm with hm | hm
            · exact hm.1
            · rw [← hh1]
              exact i2 u d n hm
          · intro st2 h2
            rw [← hh1]
            exact i3 st2 h2
      · rw [upload_loop_cons_ret sdk env r rs st cs code hr hb]
        obtain ⟨-, rfl, -, -⟩ := loop_body_ret_eq sdk env st r cs code hb
        simp
    · unfold upload_loop
      simp only [gt_iff_lt, hr, if_false]
      simp

theorem loop_body_deliver (sdk : Sdk) (env : Env) (st : LoopState) (c : List Nat)
    (hc : c ≠ []) :
    ∃ st1, loop_body sdk env st { ret := (c.length : Int), data := c } =
        Step.next
          ([Call.httpd_req_recv (min st.remaining SCRATCH_BUFSIZE)] ++
            (header_check sdk env st { ret := (c.length : Int), data := c }).1 ++
            [Call.esp_ota_write
              (header_check sdk env st { ret := (c.length : Int), data := c }).2.update_handle
              c (c.length : Int)]) st1 ∧
      st1.remaining = st.remaining - (c.length : Int) ∧
      st1.binary_file_length = st.binary_file_length + (c.length : Int) ∧
      st1.image_header_was_checked =
        (header_check sdk env st
          { ret := (c.length : Int), data := c }).2.image_header_was_checked ∧
      st1.update_handle =
        (header_check sdk env st { ret := (c.length : Int), data := c }).2.update_handle := by
  have hpos : (0 : Int) < (c.length : Int) := by
    have := List.length_pos.mpr hc
    omega
  have hb := loop_body_data sdk env st { ret := (c.length : Int), data := c } hpos
  rcases loop_body_next_inv sdk env st _ _ _ hb with ⟨hle, -, -⟩ | ⟨-, -, h1, h2, h3, h4⟩
  · simp only at hle
    omega
  · refine ⟨_, ?_, h1, h2, h3, h4⟩
    rw [hb]
    simp

/-- When the chunks are delivered in full and add up to `remaining`, the loop consumes
them all and is left with `remaining = 0`; the data of its `esp_ota_write` calls, in order,
are the chunks one after the other. -/
theorem upload_loop_deliver (sdk : Sdk) (env : Env) (chunks : List (List Nat)) :
    ∀ st, (∀ c ∈ chunks, c ≠ []) → st.remaining = (chunks.flatten.length : Int) →
      ∃ st1, (upload_loop sdk env (deliver chunks) st).2 = LoopEnd.finished st1 ∧
        st1.remaining = 0 ∧
        st1.binary_file_length = st.binary_file_length + (chunks.flatten.length : Int) ∧
        write_data (upload_loop sdk env (deliver chunks) st).1 = chunks.flatten := by
  induction chunks with
  | nil =>
    intro st _ hrem
    simp only [List.flatten_nil, List.length_nil, Nat.cast_zero] at hrem
    refine ⟨st, ?_, hrem, by simp, ?_⟩ <;>
      · unfold deliver upload_loop
        simp [hrem, write_data]
  | cons c cs ih =>
    intro st hne hrem
    have hc : c ≠ [] := hne c (by simp)
    have hcs : ∀ x ∈ cs, x ≠ [] := fun x hx => hne x (by simp [hx])
    have hpos : 0 < c.length := List.length_pos.mpr hc
    simp only [List.flatten_cons, List.length_append, Nat.cast_add] at hrem ⊢
    have hr : 0 < st.remaining := by omega
    obtain ⟨st0, hb, g1, g2, -, -⟩ := loop_body_deliver sdk env st c hc
    have hd : deliver (c :: cs) = { ret := (c.length : Int), data := c } :: deliver cs := rfl
    rw [hd, upload_loop_cons_next sdk env _ (deliver cs) st _ _ hr hb]
    obtain ⟨st1, e1, e2, e3, e4⟩ := ih st0 hcs (by rw [g1]; omega)
    refine ⟨st1, e1, e2, ?_, ?_⟩
    · rw [e3, g2]
      omega
    · simp only [write_data_append, e4]
      rw [write_data_of_no_write _ (header_check_no_write sdk env st _)]
      simp [write_data]

theorem shape_of_finished (sdk : Sdk) (req : Req) (env : Env) (last : Call) (ex : Exit)
    (o : Outcome) (hs : HandlerShape sdk req env last ex o)
    (hchk : (upload_checks sdk req env).2 = none) (st1 : LoopState)
    (hfin : (upload_loop sdk env env.recvs (loop_entry req)).2 = LoopEnd.finished st1) :
    o.calls = (upload_checks sdk req env).1 ++
      (upload_loop sdk env env.recvs (loop_entry req)).1 ++ commit_calls env st1 ++ [last] ∧
    o.exit = ex := by
  have hu := upload_until_commit_of_checks sdk req env hchk
  rcases hs with ⟨st, hf, hcalls, hex⟩ | ⟨hn, -, -⟩
  · rw [hu] at hf hcalls
    simp only at hf hcalls
    rw [hfin] at hf
    have : st1 = st := LoopEnd.finished.inj hf
    subst this
    exact ⟨hcalls, hex⟩
  · rw [hu] at hn
    exact absurd hfin (hn st1)

theorem deliver_ret (chunks : List (List Nat)) (n : Nat) (h : ∀ c ∈ chunks, c.length ≤ n) :
    ∀ r ∈ deliver chunks, r.ret ≤ (n : Int) := by
  intro r hr
  unfold deliver at hr
  simp only [List.mem_map] at hr
  obtain ⟨c, hc, rfl⟩ := hr
  have := h c hc
  simp only
  omega

/-- When the chunks of an upload are delivered in full and every one of them is at most the
header window long, a run of either handler never calls `esp_ota_begin`, passes every
chunk to `esp_ota_write` with `update_handle` 0, in order, and reaches the calls after the
loop with `binary_file_length = content_len`, calling `esp_ota_end(0)`. -/
theorem shape_short_chunks (sdk : Sdk) (req : Req) (env : Env) (last : Call) (ex : Exit)
    (o : Outcome) (hs : HandlerShape sdk req env last ex o)
    (hlast : last = Call.esp_restart ∨ last = Call.http_board_restart_page)
    (chunks : List (List Nat)) (hrecv : env.recvs = deliver chunks)
    (hchk : (upload_checks sdk req env).2 = none)
    (hne : ∀ c ∈ chunks, c ≠ [])
    (hlen : req.content_len = chunks.flatten.length)
    (hshort : ∀ c ∈ chunks, c.length ≤ sdk.header_window) :
    (∀ p, Call.esp_ota_begin p ∉ o.calls) ∧
    (∀ u d n, Call.esp_ota_write u d n ∈ o.calls → u = 0) ∧
    write_data o.calls = chunks.flatten ∧
    Call.log (Log.total_written req.content_len) ∈ o.calls ∧
    Call.esp_ota_end 0 ∈ o.calls ∧
    Call.esp_ota_set_boot_partition env.update_partition ∈ o.calls ∧
    o.exit = ex := by
  obtain ⟨st1, hfin, -, hbfl, hwd⟩ := upload_loop_deliver sdk env chunks (loop_entry req) hne
    (by simp [loop_entry, hlen])
  obtain ⟨s1, s2, s3⟩ := upload_loop_short sdk env (deliver chunks)
    (deliver_ret chunks _ hshort) (loop_entry req) rfl
  rw [← hrecv] at hfin hwd s1 s2 s3
  obtain ⟨hcalls, hex⟩ := shape_of_finished sdk req env last ex o hs hchk st1 hfin
  have hh : st1.update_handle = 0 := s3 st1 hfin
  have hb : st1.binary_file_length = (req.content_len : Int) := by
    rw [hbfl, hlen]
    simp [loop_entry]
  have hcc := commit_calls_eq env st1
  rw [hh, hb] at hcc
  have hrep := upload_checks_report sdk req env
  refine ⟨?_, ?_, ?_, ?_, ?_, ?_, hex⟩
  · intro p hm
    rw [hcalls] at hm
    simp only [List.mem_append, List.mem_singleton] at hm
    rcases hm with ((hm | hm) | hm) | hm
    · have := (hrep _ hm).1
      simp [Call.is_report] at this
    · exact s1 p hm
    · rcases mem_commit_calls env st1 _ hm with g | g | g | g | g <;> simp at g
    · rcases hlast with g | g <;> rw [g] at hm <;> simp at hm
  · intro u d n hm
    rw [hcalls] at hm
    simp only [List.mem_append, List.mem_singleton] at hm
    rcases hm with ((hm | hm) | hm) | hm
    · have := (hrep _ hm).1
      simp [Call.is_report] at this
    · exact s2 u d n hm
    · rcases mem_commit_calls env st1 _ hm with g | g | g | g | g <;> simp at g
    · rcases hlast with g | g <;> rw [g] at hm <;> simp at hm
  · rw [hcalls]
    simp only [write_data_append, hwd]
    rw [write_data_of_no_write _ (upload_checks_no_write sdk req env),
      write_data_of_no_write _ (commit_calls_no_write env st1)]
    rcases hlast with g | g <;> rw [g] <;> simp [write_data]
  · rw [hcalls, hcc]; simp
  · rw [hcalls, hcc]; simp
  · rw [hcalls, hcc]; simp

/-- When the chunks of an upload are delivered in full, a run of either handler passes
them to `esp_ota_write` in order and reaches `esp_ota_end`; and when the first chunk is
longer than the header window, `esp_ota_begin` is called before the first `esp_ota_write`
and every chunk is written on the handle that `esp_ota_begin` handed out, so the bytes
written on that handle are the image whatever the chunk boundaries. -/
theorem shape_first_chunk_fits (sdk : Sdk) (req : Req) (env : Env) (last : Call) (ex : Exit)
    (o : Outcome) (hs : HandlerShape sdk req env last ex o)
    (hlast : last = Call.esp_restart ∨ last = Call.http_board_restart_page)
    (chunks : List (List Nat)) (hrecv : env.recvs = deliver chunks)
    (hchk : (upload_checks sdk req env).2 = none)
    (hne : ∀ c ∈ chunks, c ≠ [])
    (hlen : req.content_len = chunks.flatten.length) :
    write_data o.calls = chunks.flatten ∧
    (∃ u, Call.esp_ota_end u ∈ o.calls) ∧
    o.exit = ex ∧
    (∀ first rest, chunks = first :: rest → sdk.header_window < first.length →
      written_to env.esp_ota_begin.2 o.calls = chunks.flatten ∧
      ∃ pre post, o.calls = pre ++ Call.esp_ota_begin env.update_partition :: post ∧
        ∀ c ∈ pre, c.is_write = false) := by
  obtain ⟨st1, hfin, -, -, hwd⟩ := upload_loop_deliver sdk env chunks (loop_entry req) hne
    (by simp [loop_entry, hlen])
  rw [← hrecv] at hfin hwd
  obtain ⟨hcalls, hex⟩ := shape_of_finished sdk req env last ex o hs hchk st1 hfin
  have hlw : write_data [last] = [] ∧ ∀ h, written_to h [last] = [] := by
    rcases hlast with g | g <;> rw [g] <;> exact ⟨rfl, fun _ => rfl⟩
  have hwall : write_data o.calls = chunks.flatten := by
    rw [hcalls]
    simp only [write_data_append, hwd, hlw.1]
    rw [write_data_of_no_write _ (upload_checks_no_write sdk req env),
      write_data_of_no_write _ (commit_calls_no_write env st1)]
    simp
  refine ⟨hwall, ⟨st1.update_handle, by rw [hcalls, commit_calls_eq]; simp⟩, hex, ?_⟩
  intro first rest hch hfit
  subst hch
  have hfirst : first ≠ [] := hne first (by simp)
  have hpos : 0 < first.length := List.length_pos.mpr hfirst
  have hr : 0 < (loop_entry req).remaining := by
    simp only [loop_entry, hlen, List.flatten_cons, List.length_append, Nat.cast_add]
    omega
  obtain ⟨st0, hb, -, -, g3, g4⟩ := loop_body_deliver sdk env (loop_entry req) first hfirst
  have hlong := header_check_long sdk env (loop_entry req)
    { ret := (first.length : Int), data := first } rfl (by simp only; omega)
  rw [hlong] at hb g3 g4
  simp only at hb g3 g4
  have hd : deliver (first :: rest) =
      { ret := (first.length : Int), data := first } :: deliver rest := rfl
  have hloop := upload_loop_cons_next sdk env _ (deliver rest) (loop_entry req) st0 _ hr hb
  rw [← hd, ← hrecv] at hloop
  have hq := upload_loop_checked_handle sdk env (deliver rest) st0 g3
  rw [g4] at hq
  have hA : ∀ c ∈ [Call.httpd_req_recv (min (loop_entry req).remaining SCRATCH_BUFSIZE)] ++
      (version_check sdk env first ++ [Call.esp_ota_begin env.update_partition] ++
        if env.esp_ota_begin.1 ≠ ESP_OK then [Call.log Log.esp_ota_begin_failed] else []),
      c.is_write = false := by
    intro c hc
    rcases List.mem_append.mp hc with hc | hc
    · simp only [List.mem_singleton] at hc
      subst hc; rfl
    · rcases List.mem_append.mp hc with hc | hc
      · rcases List.mem_append.mp hc with hc | hc
        · rcases version_check_mem sdk env first c hc with g | g <;> subst g <;> rfl
        · simp only [List.mem_singleton] at hc
          subst hc; rfl
      · split_ifs at hc
        · simp only [List.mem_singleton] at hc
          subst hc; rfl
        · simp at hc
  have hcalls2 : o.calls = (upload_checks sdk req env).1 ++
      (([Call.httpd_req_recv (min (loop_entry req).remaining SCRATCH_BUFSIZE)] ++
        (version_check sdk env first ++ [Call.esp_ota_begin env.update_partition] ++
          if env.esp_ota_begin.1 ≠ ESP_OK then [Call.log Log.esp_ota_begin_failed] else [])) ++
        [Call.esp_ota_write env.esp_ota_begin.2 first (first.length : Int)] ++
        (upload_loop sdk env (deliver rest) st0).1) ++ commit_calls env st1 ++ [last] := by
    rw [hcalls, hloop]
  constructor
  · rw [← hwall]
    apply written_to_eq_write_data
    intro u d n hm
    rw [hcalls2] at hm
    rcases List.mem_append.mp hm with hm | hm
    · rcases List.mem_append.mp hm with hm | hm
      · rcases List.mem_append.mp hm with hm | hm
        · have := upload_checks_no_write sdk req env _ hm
          simp [Call.is_write] at this
        · rcases List.mem_append.mp hm with hm | hm
          · rcases List.mem_append.mp hm with hm | hm
            · have := hA _ hm
              simp [Call.is_write] at this
            · simp only [List.mem_singleton, Call.esp_ota_write.injEq] at hm
              exact hm.1
          · exact hq u d n hm
      · have := commit_calls_no_write env st1 _ hm
        simp [Call.is_write] at this
    · rcases hlast with g | g <;> rw [g] at hm <;> simp at hm
  · refine ⟨(upload_checks sdk req env).1 ++
        ([Call.httpd_req_recv (min (loop_entry req).remaining SCRATCH_BUFSIZE)] ++
          version_check sdk env first),
        (if env.esp_ota_begin.1 ≠ ESP_OK then [Call.log Log.esp_ota_begin_failed] else []) ++
          ([Call.esp_ota_write env.esp_ota_begin.2 first (first.length : Int)] ++
            ((upload_loop sdk env (deliver rest) st0).1 ++ (commit_calls env st1 ++ [last]))),
        ?_, ?_⟩
    · rw [hcalls2]
      simp only [List.append_assoc, List.singleton_append, List.cons_append, List.nil_append]
    · intro c hc
      rcases List.mem_append.mp hc with hc | hc
      · exact upload_checks_no_write sdk req env c hc
      · rcases List.mem_append.mp hc with hc | hc
        · simp only [List.mem_singleton] at hc
          subst hc; rfl
        · rcases version_check_mem sdk env first c hc with g | g <;> subst g <;> rfl

/-! ## Claims -/

/-- C1. In `upload_post_handler` of both files, when every `httpd_req_recv` that returns a
positive value returns at most the requested number of bytes: after every pass through the
loop body `binary_file_length + remaining = content_len` and `0 ≤ remaining`, hence
`binary_file_length ≤ content_len`; when the loop is left `binary_file_length = content_len`;
and a run that reaches `esp_ota_end` or `esp_ota_set_boot_partition` has logged exactly
`content_len` as the total written length. -/
theorem bytes_written_accounting (sdk : Sdk) (req : Req) (env : Env)
    (hrecv : recv_within_request sdk env env.recvs (loop_entry req) = true) :
    (∀ s ∈ loop_states sdk env env.recvs (loop_entry req),
      s.binary_file_length + s.remaining = req.content_len ∧ 0 ≤ s.remaining ∧
        s.binary_file_length ≤ req.content_len) ∧
    (∀ s, (upload_loop sdk env env.recvs (loop_entry req)).2 = LoopEnd.finished s →
      s.binary_file_length = req.content_len) ∧
    (∀ o, o = file_server.upload_post_handler sdk req env ∨
        o = ota_server.upload_post_handler sdk req env →
      (∀ n, Call.log (Log.total_written n) ∈ o.calls → n = req.content_len) ∧
      (∀ c ∈ o.calls,
        (∃ h, c = Call.esp_ota_end h) ∨ (∃ p, c = Call.esp_ota_set_boot_partition p) →
        Call.log (Log.total_written req.content_len) ∈ o.calls)) := by
  have hinv := upload_loop_invariant sdk env req.content_len env.recvs (loop_entry req) hrecv
    (by simp [loop_entry])
  refine ⟨?_, ?_, ?_⟩
  · intro s hs
    have := hinv.1 s hs
    exact ⟨this.1, this.2, by omega⟩
  · intro s hs
    exact (hinv.2 s hs).1
  · intro o ho
    rcases ho with rfl | rfl
    · exact shape_total_written sdk req env _ _ _ (file_server_shape sdk req env)
        (by simp) hrecv
    · exact shape_total_written sdk req env _ _ _ (ota_server_shape sdk req env)
        (by simp) hrecv

/-- Witness of C1: 600 declared bytes received as two chunks of 300. -/
theorem bytes_written_accounting_witness :
    recv_within_request esp32_sdk (ok_env [chunk 300, chunk 300])
        (ok_env [chunk 300, chunk 300]).recvs (loop_entry (fw_req 600)) = true ∧
    (∀ s, (upload_loop esp32_sdk (ok_env [chunk 300, chunk 300])
        (ok_env [chunk 300, chunk 300]).recvs (loop_entry (fw_req 600))).2 = LoopEnd.finished s →
      s.binary_file_length = ((fw_req 600).content_len : Int)) :=
  ⟨by decide,
    (bytes_written_accounting esp32_sdk (fw_req 600) (ok_env [chunk 300, chunk 300])
      (by decide)).2.1⟩

/-- C2. For every request with `content_len > MAX_FILE_SIZE = 1048576`, `upload_post_handler`
of both files returns `ESP_FAIL` having made no call other than log lines and the error
response: no `httpd_req_recv`, no `esp_ota_begin` / `esp_ota_write` / `esp_ota_end`, no
`esp_ota_set_boot_partition`. With `content_len` exactly 1048576 the checks before the loop
decide as they do for an empty body, and when they pass the handler goes on to request
`SCRATCH_BUFSIZE` bytes. -/
theorem too_large_rejected (sdk : Sdk) (req : Req) (env : Env)
    (h : MAX_FILE_SIZE < req.content_len) :
    MAX_FILE_SIZE = 1048576 ∧
    (∀ o, o = file_server.upload_post_handler sdk req env ∨
        o = ota_server.upload_post_handler sdk req env →
      o.exit = Exit.returned ESP_FAIL ∧ ∀ c ∈ o.calls, c.is_report = true) ∧
    upload_checks sdk { req with content_len := 1048576 } env =
      upload_checks sdk { req with content_len := 0 } env ∧
    ((upload_checks sdk { req with content_len := 0 } env).2 = none →
      ∀ o, o = file_server.upload_post_handler sdk { req with content_len := 1048576 } env ∨
          o = ota_server.upload_post_handler sdk { req with content_len := 1048576 } env →
        Call.httpd_req_recv SCRATCH_BUFSIZE ∈ o.calls) := by
  have hb := upload_checks_size_boundary sdk req.uri req.base_path env 1048576 (by decide)
  refine ⟨rfl, ?_, hb, ?_⟩
  · intro o ho
    rcases ho with rfl | rfl
    · exact shape_too_large sdk req env _ _ _ (file_server_shape sdk req env) h
    · exact shape_too_large sdk req env _ _ _ (ota_server_shape sdk req env) h
  · intro hpass o ho
    have hc : (upload_checks sdk { req with content_len := 1048576 } env).2 = none := by
      rw [hb]; exact hpass
    have hu := upload_until_commit_of_checks sdk { req with content_len := 1048576 } env hc
    obtain ⟨tl, htl⟩ := upload_loop_head sdk env env.recvs
      (loop_entry { req with content_len := 1048576 }) (by simp [loop_entry])
    have hmin : min (loop_entry { req with content_len := 1048576 }).remaining SCRATCH_BUFSIZE
        = SCRATCH_BUFSIZE := by
      simp [loop_entry, SCRATCH_BUFSIZE]
    rw [hmin] at htl
    have hmem : Call.httpd_req_recv SCRATCH_BUFSIZE ∈
        (upload_until_commit sdk { req with content_len := 1048576 } env).1 := by
      rw [hu, htl]; simp
    have key : ∀ (last : Call) (ex : Exit) (o : Outcome),
        HandlerShape sdk { req with content_len := 1048576 } env last ex o →
        Call.httpd_req_recv SCRATCH_BUFSIZE ∈ o.calls := by
      intro last ex o hs
      rcases hs with ⟨st, -, hcalls, -⟩ | ⟨-, hcalls, -⟩ <;> rw [hcalls] <;> simp [hmem]
    rcases ho with rfl | rfl
    · exact key _ _ _ (file_server_shape sdk _ env)
    · exact key _ _ _ (ota_server_shape sdk _ env)

/-- Witness of C2: one byte more than the limit. -/
theorem too_large_rejected_witness :
    MAX_FILE_SIZE < (fw_req 1048577).content_len ∧
    (file_server.upload_post_handler esp32_sdk (fw_req 1048577) (ok_env [chunk 300])).exit =
      Exit.returned ESP_FAIL :=
  ⟨by decide,
    ((too_large_rejected esp32_sdk (fw_req 1048577) (ok_env [chunk 300]) (by decide)).2.1
      _ (Or.inl rfl)).1⟩

/-- C5. In `upload_post_handler` of both files, whatever the declared length and however
many receives have already been served: when the handler is waiting for data and
`httpd_req_recv` returns a non-positive value other than `HTTPD_SOCK_ERR_TIMEOUT`, the handler
sends the error response and returns `ESP_FAIL`; the run contains no
`esp_ota_set_boot_partition`, no `esp_ota_end` and no `esp_restart`. -/
theorem receive_failure_aborts (sdk : Sdk) (req : Req) (env : Env)
    (pre post : List RecvResult) (r : RecvResult)
    (hactive : (file_server.upload_post_handler sdk req { env with recvs := pre }).exit =
      Exit.blocked)
    (hle : r.ret ≤ 0) (hne : r.ret ≠ HTTPD_SOCK_ERR_TIMEOUT) :
    ∀ o, o = file_server.upload_post_handler sdk req { env with recvs := pre ++ r :: post } ∨
        o = ota_server.upload_post_handler sdk req { env with recvs := pre ++ r :: post } →
      o.exit = Exit.returned ESP_FAIL ∧
      Call.httpd_resp_send_err RespErr.failed_to_receive_file ∈ o.calls ∧
      (∀ p, Call.esp_ota_set_boot_partition p ∉ o.calls) ∧
      (∀ u, Call.esp_ota_end u ∉ o.calls) ∧
      Call.esp_restart ∉ o.calls := by
  have hblocked := shape_exit_blocked sdk req _ _ _ _ (file_server_shape sdk req _)
    (by simp) hactive
  obtain ⟨hret, hmem⟩ := upload_until_commit_failure sdk req env pre post r hblocked hle hne
  have key : ∀ (last : Call) (ex : Exit) (o : Outcome),
      HandlerShape sdk req { env with recvs := pre ++ r :: post } last ex o →
      o.exit = Exit.returned ESP_FAIL ∧
      Call.httpd_resp_send_err RespErr.failed_to_receive_file ∈ o.calls ∧
      (∀ p, Call.esp_ota_set_boot_partition p ∉ o.calls) ∧
      (∀ u, Call.esp_ota_end u ∉ o.calls) ∧
      Call.esp_restart ∉ o.calls := by
    intro last ex o hs
    obtain ⟨he, hc⟩ := shape_of_returned sdk req _ last ex o hs hret
    have hb := upload_until_commit_before_commit sdk req { env with recvs := pre ++ r :: post }
    rw [← hc] at hb hmem
    refine ⟨he, hmem, ?_, ?_, ?_⟩
    · intro p hp
      have := hb _ hp
      simp [Call.before_commit] at this
    · intro u hu
      have := hb _ hu
      simp [Call.before_commit] at this
    · intro hp
      have := hb _ hp
      simp [Call.before_commit] at this
  intro o ho
  rcases ho with rfl | rfl
  · exact key _ _ _ (file_server_shape sdk req _)
  · exact key _ _ _ (ota_server_shape sdk req _)

/-- Witness of C5, the scenario of the specification: 2048 bytes declared, 500 received,
then the receive fails with -1. -/
theorem receive_failure_aborts_witness :
    (file_server.upload_post_handler esp32_sdk (fw_req 2048)
      { ok_env [] with recvs := [chunk 500] }).exit = Exit.blocked ∧
    (ota_server.upload_post_handler esp32_sdk (fw_req 2048)
      { ok_env [] with recvs := [chunk 500] ++ ⟨-1, []⟩ :: [] }).exit =
        Exit.returned ESP_FAIL :=
  ⟨by decide,
    (receive_failure_aborts esp32_sdk (fw_req 2048) (ok_env []) [chunk 500] [] ⟨-1, []⟩
      (by decide) (by decide) (by decide) _ (Or.inr rfl)).1⟩

/-- Counterexample to C3: 300 declared bytes arrive in one chunk and `esp_ota_end` fails with
`ESP_ERR_OTA_VALIDATE_FAILED`. Both handlers log the failure and call
`esp_ota_set_boot_partition` all the same; `file_server.c` then restarts and `ota_server.c`
returns `ESP_OK`. -/
theorem set_boot_after_failed_end :
    ESP_ERR_OTA_VALIDATE_FAILED ≠ ESP_OK ∧
    file_server.upload_post_handler esp32_sdk (fw_req 300)
        { ok_env [chunk 300] with esp_ota_end := ESP_ERR_OTA_VALIDATE_FAILED } =
      { calls := [Call.httpd_req_recv 300, Call.esp_ota_begin 2,
          Call.esp_ota_write 1 (List.replicate 300 0) 300, Call.log (Log.total_written 300),
          Call.esp_ota_end 1, Call.log Log.esp_ota_end_failed,
          Call.esp_ota_set_boot_partition 2, Call.esp_restart],
        exit := Exit.restarted } ∧
    ota_server.upload_post_handler esp32_sdk (fw_req 300)
        { ok_env [chunk 300] with esp_ota_end := ESP_ERR_OTA_VALIDATE_FAILED } =
      { calls := [Call.httpd_req_recv 300, Call.esp_ota_begin 2,
          Call.esp_ota_write 1 (List.replicate 300 0) 300, Call.log (Log.total_written 300),
          Call.esp_ota_end 1, Call.log Log.esp_ota_end_failed,
          Call.esp_ota_set_boot_partition 2, Call.http_board_restart_page],
        exit := Exit.returned ESP_OK } := by
  decide

/-- C3, amended. In `upload_post_handler` of both files `esp_ota_set_boot_partition` is called
only after `esp_ota_end` has been called, and then always, whatever `esp_ota_end` returned: a
failure of `esp_ota_end` is logged (`esp_ota_end failed!`) and the handler goes on to
`esp_ota_set_boot_partition`. -/
theorem set_boot_follows_end (sdk : Sdk) (req : Req) (env : Env) :
    ∀ o, o = file_server.upload_post_handler sdk req env ∨
        o = ota_server.upload_post_handler sdk req env →
      (∀ p, Call.esp_ota_set_boot_partition p ∈ o.calls →
        ∃ pre post u, o.calls = pre ++ Call.esp_ota_end u :: post ∧
          Call.esp_ota_set_boot_partition p ∈ post ∧
          ∀ q, Call.esp_ota_set_boot_partition q ∉ pre) ∧
      (∀ u, Call.esp_ota_end u ∈ o.calls →
        Call.esp_ota_set_boot_partition env.update_partition ∈ o.calls) ∧
      (env.esp_ota_end ≠ ESP_OK → ∀ u, Call.esp_ota_end u ∈ o.calls →
        Call.log Log.esp_ota_end_failed ∈ o.calls) := by
  intro o ho
  rcases ho with rfl | rfl
  · exact shape_boot_after_end sdk req env _ _ _ (file_server_shape sdk req env)
      (Or.inl rfl)
  · exact shape_boot_after_end sdk req env _ _ _ (ota_server_shape sdk req env)
      (Or.inr rfl)

/-- Witness of C3, amended: a run in which `esp_ota_end` fails and is followed by
`esp_ota_set_boot_partition`. -/
theorem set_boot_follows_end_witness :
    Call.esp_ota_end 1 ∈ (ota_server.upload_post_handler esp32_sdk (fw_req 300)
      { ok_env [chunk 300] with esp_ota_end := ESP_ERR_OTA_VALIDATE_FAILED }).calls ∧
    Call.esp_ota_set_boot_partition 2 ∈ (ota_server.upload_post_handler esp32_sdk (fw_req 300)
      { ok_env [chunk 300] with esp_ota_end := ESP_ERR_OTA_VALIDATE_FAILED }).calls :=
  ⟨by decide,
    (set_boot_follows_end esp32_sdk (fw_req 300)
      { ok_env [chunk 300] with esp_ota_end := ESP_ERR_OTA_VALIDATE_FAILED }
      _ (Or.inr rfl)).2.1 1 (by decide)⟩

/-- Counterexample to C4: 600 declared bytes arrive in two chunks of 300 and the first
`esp_ota_write` fails with `ESP_ERR_OTA_VALIDATE_FAILED`. Both handlers receive and write the
second chunk, call `esp_ota_end` and `esp_ota_set_boot_partition`, and do not report a
failure: `file_server.c` restarts, `ota_server.c` returns `ESP_OK`. -/
theorem write_failure_does_not_abort :
    ESP_ERR_OTA_VALIDATE_FAILED ≠ ESP_OK ∧
    file_server.upload_post_handler esp32_sdk (fw_req 600)
        { ok_env [chunk 300, chunk 300] with
          esp_ota_write := fun k => if k = 0 then ESP_ERR_OTA_VALIDATE_FAILED else ESP_OK } =
      { calls := [Call.httpd_req_recv 600, Call.esp_ota_begin 2,
          Call.esp_ota_write 1 (List.replicate 300 0) 300,
          Call.httpd_req_recv 300,
          Call.esp_ota_write 1 (List.replicate 300 0) 300,
          Call.log (Log.total_written 600),
          Call.esp_ota_end 1, Call.esp_ota_set_boot_partition 2, Call.esp_restart],
        exit := Exit.restarted } ∧
    ota_server.upload_post_handler esp32_sdk (fw_req 600)
        { ok_env [chunk 300, chunk 300] with
          esp_ota_write := fun k => if k = 0 then ESP_ERR_OTA_VALIDATE_FAILED else ESP_OK } =
      { calls := [Call.httpd_req_recv 600, Call.esp_ota_begin 2,
          Call.esp_ota_write 1 (List.replicate 300 0) 300,
          Call.httpd_req_recv 300,
          Call.esp_ota_write 1 (List.replicate 300 0) 300,
          Call.log (Log.total_written 600),
          Call.esp_ota_end 1, Call.esp_ota_set_boot_partition 2,
          Call.http_board_restart_page],
        exit := Exit.returned ESP_OK } := by
  decide

/-- C4, amended. In `upload_post_handler` of both files the result of `esp_ota_write` is
stored in `err` and not acted upon: whatever the `esp_ota_write` calls return, the handler
makes the same calls with the same arguments and ends in the same way as when every write
succeeds. -/
theorem write_result_ignored (sdk : Sdk) (req : Req) (env : Env) (w : Nat → Int) :
    file_server.upload_post_handler sdk req { env with esp_ota_write := w } =
      file_server.upload_post_handler sdk req { env with esp_ota_write := fun _ => ESP_OK } ∧
    ota_server.upload_post_handler sdk req { env with esp_ota_write := w } =
      ota_server.upload_post_handler sdk req { env with esp_ota_write := fun _ => ESP_OK } := by
  have key : ∀ (last : Call) (ex : Exit) (o1 o2 : Outcome),
      HandlerShape sdk req { env with esp_ota_write := w } last ex o1 →
      HandlerShape sdk req { env with esp_ota_write := fun _ => ESP_OK } last ex o2 →
      o1 = o2 := by
    intro last ex o1 o2 h1 h2
    have h := shape_sim sdk req _ _ (fun _ => true) last ex o1 o2 h1 h2 rfl rfl rfl rfl rfl rfl
      (fun _ => rfl)
    rw [filter_all, filter_all] at h
    cases o1
    cases o2
    simp only [Outcome.mk.injEq]
    exact h
  exact ⟨key _ _ _ _ (file_server_shape sdk req _) (file_server_shape sdk req _),
    key _ _ _ _ (ota_server_shape sdk req _) (ota_server_shape sdk req _)⟩

/-- Counterexample to C6: 300 declared bytes arrive in one chunk and
`esp_ota_set_boot_partition` fails. `file_server.c` logs the failure and calls `esp_restart`;
`ota_server.c` logs it, sends the restart page and returns `ESP_OK`. -/
theorem restart_after_failed_set_boot :
    ESP_ERR_OTA_VALIDATE_FAILED ≠ ESP_OK ∧
    file_server.upload_post_handler esp32_sdk (fw_req 300)
        { ok_env [chunk 300] with esp_ota_set_boot_partition := ESP_ERR_OTA_VALIDATE_FAILED } =
      { calls := [Call.httpd_req_recv 300, Call.esp_ota_begin 2,
          Call.esp_ota_write 1 (List.replicate 300 0) 300, Call.log (Log.total_written 300),
          Call.esp_ota_end 1, Call.esp_ota_set_boot_partition 2,
          Call.log Log.esp_ota_set_boot_partition_failed, Call.esp_restart],
        exit := Exit.restarted } ∧
    ota_server.upload_post_handler esp32_sdk (fw_req 300)
        { ok_env [chunk 300] with esp_ota_set_boot_partition := ESP_ERR_OTA_VALIDATE_FAILED } =
      { calls := [Call.httpd_req_recv 300, Call.esp_ota_begin 2,
          Call.esp_ota_write 1 (List.replicate 300 0) 300, Call.log (Log.total_written 300),
          Call.esp_ota_end 1, Call.esp_ota_set_boot_partition 2,
          Call.log Log.esp_ota_set_boot_partition_failed, Call.http_board_restart_page],
        exit := Exit.returned ESP_OK } := by
  decide

/-- C6, amended. In `file_server.c`, `upload_post_handler` calls `esp_restart` exactly in the
runs that leave the write loop, as its last call, after `esp_ota_end` and
`esp_ota_set_boot_partition` have been called and whatever they returned; a run without
`esp_ota_end` ends blocked or with `ESP_FAIL` and without `esp_restart`. In `ota_server.c`,
`upload_post_handler` never calls `esp_restart`: in the runs that leave the write loop it
sends the restart page as its last call and returns `ESP_OK`, whatever the two calls
returned, and `run_reset_handler` calls `esp_restart` unconditionally. -/
theorem restart_follows_commit_calls (sdk : Sdk) (req : Req) (env : Env) :
    (Call.esp_restart ∈ (file_server.upload_post_handler sdk req env).calls →
      ∃ pre, (file_server.upload_post_handler sdk req env).calls = pre ++ [Call.esp_restart] ∧
        Call.esp_restart ∉ pre ∧ (∃ u, Call.esp_ota_end u ∈ pre) ∧
        Call.esp_ota_set_boot_partition env.update_partition ∈ pre) ∧
    ((∃ u, Call.esp_ota_end u ∈ (file_server.upload_post_handler sdk req env).calls) →
      Call.esp_restart ∈ (file_server.upload_post_handler sdk req env).calls ∧
      (file_server.upload_post_handler sdk req env).exit = Exit.restarted) ∧
    ((∀ u, Call.esp_ota_end u ∉ (file_server.upload_post_handler sdk req env).calls) →
      Call.esp_restart ∉ (file_server.upload_post_handler sdk req env).calls ∧
      ((file_server.upload_post_handler sdk req env).exit = Exit.blocked ∨
        (file_server.upload_post_handler sdk req env).exit = Exit.returned ESP_FAIL)) ∧
    Call.esp_restart ∉ (ota_server.upload_post_handler sdk req env).calls ∧
    ((∃ u, Call.esp_ota_end u ∈ (ota_server.upload_post_handler sdk req env).calls) →
      (∃ pre, (ota_server.upload_post_handler sdk req env).calls =
        pre ++ [Call.http_board_restart_page]) ∧
      (ota_server.upload_post_handler sdk req env).exit = Exit.returned ESP_OK) ∧
    ota_server.run_reset_handler = { calls := [Call.esp_restart], exit := Exit.restarted } := by
  obtain ⟨f1, f2, f3, -⟩ := shape_closing_call sdk req env _ _ _
    (file_server_shape sdk req env) (Or.inl rfl)
  obtain ⟨g1, g2, -, g4⟩ := shape_closing_call sdk req env _ _ _
    (ota_server_shape sdk req env) (Or.inr rfl)
  refine ⟨?_, f2, f3, ?_, ?_, rfl⟩
  · intro h
    exact f1 h
  · intro h
    have := g4 _ h (Or.inl rfl)
    simp at this
  · intro h
    obtain ⟨hm, he⟩ := g2 h
    obtain ⟨pre, h1, -⟩ := g1 hm
    exact ⟨⟨pre, h1⟩, he⟩

/-- Witness of C6, amended: a run in which `esp_ota_set_boot_partition` fails and
`esp_restart` follows. -/
theorem restart_follows_commit_calls_witness :
    (∃ u, Call.esp_ota_end u ∈ (file_server.upload_post_handler esp32_sdk (fw_req 300)
      { ok_env [chunk 300] with
        esp_ota_set_boot_partition := ESP_ERR_OTA_VALIDATE_FAILED }).calls) ∧
    (Call.esp_restart ∈ (file_server.upload_post_handler esp32_sdk (fw_req 300)
      { ok_env [chunk 300] with
        esp_ota_set_boot_partition := ESP_ERR_OTA_VALIDATE_FAILED }).calls ∧
    (file_server.upload_post_handler esp32_sdk (fw_req 300)
      { ok_env [chunk 300] with
        esp_ota_set_boot_partition := ESP_ERR_OTA_VALIDATE_FAILED }).exit = Exit.restarted) :=
  ⟨⟨1, by decide⟩,
    (restart_follows_commit_calls esp32_sdk (fw_req 300)
      { ok_env [chunk 300] with
        esp_ota_set_boot_partition := ESP_ERR_OTA_VALIDATE_FAILED }).2.1 ⟨1, by decide⟩⟩

/-- C8, the code at the failing input: 600 declared bytes, a first chunk of 300 bytes that
opens the write handle with `esp_ota_begin`, then a receive that fails with -1. Both
handlers return `ESP_FAIL` and `esp_ota_end` is never called. -/
theorem handle_not_released_on_receive_failure :
    file_server.upload_post_handler esp32_sdk (fw_req 600)
        (ok_env [chunk 300, { ret := -1, data := [] }]) =
      { calls := [Call.httpd_req_recv 600, Call.esp_ota_begin 2,
          Call.esp_ota_write 1 (List.replicate 300 0) 300,
          Call.httpd_req_recv 300, Call.log Log.file_reception_failed,
          Call.httpd_resp_send_err RespErr.failed_to_receive_file],
        exit := Exit.returned ESP_FAIL } ∧
    ota_server.upload_post_handler esp32_sdk (fw_req 600)
        (ok_env [chunk 300, { ret := -1, data := [] }]) =
      { calls := [Call.httpd_req_recv 600, Call.esp_ota_begin 2,
          Call.esp_ota_write 1 (List.replicate 300 0) 300,
          Call.httpd_req_recv 300, Call.log Log.file_reception_failed,
          Call.httpd_resp_send_err RespErr.failed_to_receive_file],
        exit := Exit.returned ESP_FAIL } := by
  decide

/-- Counterexample to C9: the candidate, the running version and the last invalid version
are all the all-zero 32-byte string. The code logs both warnings, where the policy of the
specification yields the single outcome `WarnSameAsFailed`; both warnings also appear in
the run of the handler. -/
theorem both_version_warnings_logged :
    version_check esp32_sdk (same_version_env []) (List.replicate 300 0) =
      [Call.log Log.same_as_invalid_version, Call.log Log.same_as_running_version] ∧
    spec_version_policy 32 (List.replicate 32 0) (List.replicate 32 0)
      (some (List.replicate 32 0)) = Decision.WarnSameAsFailed ∧
    version_check esp32_sdk (same_version_env []) (List.replicate 300 0) ≠
      (spec_version_policy 32 (List.replicate 32 0) (List.replicate 32 0)
        (some (List.replicate 32 0))).warnings ∧
    (file_server.upload_post_handler esp32_sdk (fw_req 300)
        (same_version_env [chunk 300])).calls =
      [Call.httpd_req_recv 300, Call.log Log.same_as_invalid_version,
        Call.log Log.same_as_running_version, Call.esp_ota_begin 2,
        Call.esp_ota_write 1 (List.replicate 300 0) 300, Call.log (Log.total_written 300),
        Call.esp_ota_end 1, Call.esp_ota_set_boot_partition 2, Call.esp_restart] := by
  decide

/-- C9, amended. The version check of `upload_post_handler` is a total function of the
candidate descriptor, the running descriptor and the last invalid one that makes two
independent tests: it logs the `same as invalid version` warning exactly when
`last_invalid_app` is not NULL and the version field of `invalid_app_info` equals the
candidate's byte for byte, and it logs the `same as running` warning exactly when the
candidate's version field equals the running one byte for byte. It logs neither, either
one, or both, the first before the second. -/
theorem version_check_two_tests (sdk : Sdk) (env : Env) (ota_write_data : List Nat) :
    (Call.log Log.same_as_invalid_version ∈ version_check sdk env ota_write_data ↔
      env.last_invalid_app ≠ none ∧
      ∀ i, i < sdk.sizeof_version →
        (version sdk env.invalid_app_info.2).getD i 0 =
          (version sdk (new_app_info sdk ota_write_data)).getD i 0) ∧
    (Call.log Log.same_as_running_version ∈ version_check sdk env ota_write_data ↔
      ∀ i, i < sdk.sizeof_version →
        (version sdk (new_app_info sdk ota_write_data)).getD i 0 =
          (version sdk env.running_app_info.2).getD i 0) ∧
    (version_check sdk env ota_write_data = [] ∨
      version_check sdk env ota_write_data = [Call.log Log.same_as_invalid_version] ∨
      version_check sdk env ota_write_data = [Call.log Log.same_as_running_version] ∨
      version_check sdk env ota_write_data =
        [Call.log Log.same_as_invalid_version, Call.log Log.same_as_running_version]) := by
  rw [version_check_eq, ← memcmp_eq_zero_iff, ← memcmp_eq_zero_iff]
  split_ifs with h1 h2 h2 <;> simp [h1, h2]

/-- C10. The version comparisons are advisory only. Two runs of `upload_post_handler` (of
either file) that differ only in the running descriptor, the last invalid partition and its
descriptor make the same sequence of `esp_ota_begin` / `esp_ota_write` / `esp_ota_end` /
`esp_ota_set_boot_partition` calls, indeed the same sequence of all calls other than the two
version warnings, and end in the same way. In particular (scenario D) a 300-byte upload
whose version equals that of the last invalid partition logs the warning and still goes
on to `esp_ota_end` and `esp_ota_set_boot_partition`. -/
theorem version_check_advisory (sdk : Sdk) (req : Req) (env : Env)
    (running1 running2 invalid1 invalid2 : Int × List Nat) (last1 last2 : Option Nat) :
    Outcome.agree Call.is_ota
      (file_server.upload_post_handler sdk req (env.with_versions running1 invalid1 last1))
      (file_server.upload_post_handler sdk req (env.with_versions running2 invalid2 last2)) ∧
    Outcome.agree Call.not_version_warning
      (file_server.upload_post_handler sdk req (env.with_versions running1 invalid1 last1))
      (file_server.upload_post_handler sdk req (env.with_versions running2 invalid2 last2)) ∧
    Outcome.agree Call.is_ota
      (ota_server.upload_post_handler sdk req (env.with_versions running1 invalid1 last1))
      (ota_server.upload_post_handler sdk req (env.with_versions running2 invalid2 last2)) ∧
    Outcome.agree Call.not_version_warning
      (ota_server.upload_post_handler sdk req (env.with_versions running1 invalid1 last1))
      (ota_server.upload_post_handler sdk req (env.with_versions running2 invalid2 last2)) ∧
    ota_server.upload_post_handler esp32_sdk (fw_req 300)
        ((ok_env [chunk 300]).with_versions (ESP_OK, List.replicate 16 0 ++ [49])
          (ESP_OK, List.replicate 256 0) (some 3)) =
      { calls := [Call.httpd_req_recv 300, Call.log Log.same_as_invalid_version,
          Call.esp_ota_begin 2, Call.esp_ota_write 1 (List.replicate 300 0) 300,
          Call.log (Log.total_written 300), Call.esp_ota_end 1,
          Call.esp_ota_set_boot_partition 2, Call.http_board_restart_page],
        exit := Exit.returned ESP_OK } := by
  have key : ∀ (view : Call → Bool),
      (∀ (e : Env) (d : List Nat), (version_check sdk e d).filter view = []) →
      ∀ (last : Call) (ex : Exit) (o1 o2 : Outcome),
      HandlerShape sdk req (env.with_versions running1 invalid1 last1) last ex o1 →
      HandlerShape sdk req (env.with_versions running2 invalid2 last2) last ex o2 →
      Outcome.agree view o1 o2 := by
    intro view hv last ex o1 o2 h1 h2
    exact shape_sim sdk req _ _ view last ex o1 o2 h1 h2 rfl rfl rfl rfl rfl rfl
      (fun d => by rw [hv, hv])
  exact ⟨key _ (version_check_filter_is_ota sdk) _ _ _ _
      (file_server_shape sdk req _) (file_server_shape sdk req _),
    key _ (version_check_filter_not_warning sdk) _ _ _ _
      (file_server_shape sdk req _) (file_server_shape sdk req _),
    key _ (version_check_filter_is_ota sdk) _ _ _ _
      (ota_server_shape sdk req _) (ota_server_shape sdk req _),
    key _ (version_check_filter_not_warning sdk) _ _ _ _
      (ota_server_shape sdk req _) (ota_server_shape sdk req _),
    by decide⟩

/-- Counterexample to C7: a first upload of 600 declared bytes has been admitted, has
opened the write handle and is waiting for its second chunk, so its session is active. A
second request entering `upload_post_handler` is admitted like any other: it receives
its chunk, opens a second handle on the update partition, writes the chunk and sets the
boot partition. The handler has
no argument or variable through which it could see the first session. -/
theorem second_upload_admitted :
    file_server.upload_post_handler esp32_sdk (fw_req 600) (ok_env [chunk 300]) =
      { calls := [Call.httpd_req_recv 600, Call.esp_ota_begin 2,
          Call.esp_ota_write 1 (List.replicate 300 0) 300, Call.httpd_req_recv 300],
        exit := Exit.blocked } ∧
    file_server.upload_post_handler esp32_sdk (fw_req 300)
        { ok_env [chunk 300] with esp_ota_begin := (ESP_OK, 2) } =
      { calls := [Call.httpd_req_recv 300, Call.esp_ota_begin 2,
          Call.esp_ota_write 2 (List.replicate 300 0) 300, Call.log (Log.total_written 300),
          Call.esp_ota_end 2, Call.esp_ota_set_boot_partition 2, Call.esp_restart],
        exit := Exit.restarted } ∧
    ota_server.upload_post_handler esp32_sdk (fw_req 600) (ok_env [chunk 300]) =
      { calls := [Call.httpd_req_recv 600, Call.esp_ota_begin 2,
          Call.esp_ota_write 1 (List.replicate 300 0) 300, Call.httpd_req_recv 300],
        exit := Exit.blocked } ∧
    ota_server.upload_post_handler esp32_sdk (fw_req 300)
        { ok_env [chunk 300] with esp_ota_begin := (ESP_OK, 2) } =
      { calls := [Call.httpd_req_recv 300, Call.esp_ota_begin 2,
          Call.esp_ota_write 2 (List.replicate 300 0) 300, Call.log (Log.total_written 300),
          Call.esp_ota_end 2, Call.esp_ota_set_boot_partition 2,
          Call.http_board_restart_page],
        exit := Exit.returned ESP_OK } := by
  decide

/-- C7, amended. The single-instance guard of the module is in `start_file_server`, not in
`upload_post_handler`: once `server_data` is set, which every successful start does, each
later `start_file_server("/spiffs")` only logs `File server already started` and returns
`ESP_ERR_INVALID_STATE`, leaving `server_data` as it is. `upload_post_handler` keeps no
record of an active upload: its checks read only the request, the boot and running
partitions and `stat`, and a request that passes them with a non-empty body goes on to
`httpd_req_recv`. -/
theorem single_instance_guard_is_in_start (sdk : Sdk) (req : Req) (env : Env)
    (senv : ServerEnv) (server_data : Option (List Char)) (hset : server_data ≠ none) :
    file_server.start_file_server sdk (some "/spiffs".toList) senv server_data =
      { server_data := server_data, calls := [ServerCall.log ServerLog.already_started],
        ret := ESP_ERR_INVALID_STATE } ∧
    ota_server.start_file_server sdk (some "/spiffs".toList) senv server_data =
      { server_data := server_data, calls := [ServerCall.log ServerLog.already_started],
        ret := ESP_ERR_INVALID_STATE } ∧
    (∀ base_path senv0 sd0,
      (file_server.start_file_server sdk base_path senv0 sd0).ret = ESP_OK →
      (file_server.start_file_server sdk base_path senv0 sd0).server_data ≠ none) ∧
    (∀ base_path senv0 sd0,
      (ota_server.start_file_server sdk base_path senv0 sd0).ret = ESP_OK →
      (ota_server.start_file_server sdk base_path senv0 sd0).server_data ≠ none) ∧
    (∀ env1, env1.configured = env.configured → env1.running = env.running →
      env1.stat = env.stat → upload_checks sdk req env1 = upload_checks sdk req env) ∧
    ((upload_checks sdk req env).2 = none → 0 < req.content_len →
      ∀ o, o = file_server.upload_post_handler sdk req env ∨
          o = ota_server.upload_post_handler sdk req env →
        ∃ tl, o.calls = (upload_checks sdk req env).1 ++
          Call.httpd_req_recv (min (req.content_len : Int) SCRATCH_BUFSIZE) :: tl) := by
  have hg := start_server_guard sdk senv server_data hset
  have hne : ESP_ERR_INVALID_STATE ≠ ESP_OK := by decide
  refine ⟨?_, ?_, ?_, ?_, ?_, ?_⟩
  · unfold file_server.start_file_server
    simp only [hg, hne, ne_eq, not_false_eq_true, if_true]
  · unfold ota_server.start_file_server
    simp only [hg, hne, ne_eq, not_false_eq_true, if_true]
  · intro base_path senv0 sd0 h
    unfold file_server.start_file_server at h ⊢
    simp only at h ⊢
    split_ifs at h ⊢ with h1
    · exact absurd h h1
    · exact start_server_ok sdk base_path senv0 sd0 (by simpa using h1)
  · intro base_path senv0 sd0 h
    unfold ota_server.start_file_server at h ⊢
    simp only at h ⊢
    split_ifs at h ⊢ with h1
    · exact absurd h h1
    · exact start_server_ok sdk base_path senv0 sd0 (by simpa using h1)
  · intro env1 h1 h2 h3
    exact upload_checks_frame sdk req env1 env h1 h2 h3
  · intro hpass hlen o ho
    rcases ho with rfl | rfl
    · exact shape_first_receive sdk req env _ _ _ (file_server_shape sdk req env) hpass hlen
    · exact shape_first_receive sdk req env _ _ _ (ota_server_shape sdk req env) hpass hlen

/-- Witness of C7, amended: a first start that succeeds, followed by a second start. -/
theorem single_instance_guard_is_in_start_witness :
    (file_server.start_file_server esp32_sdk (some "/spiffs".toList)
      { calloc_succeeds := true, httpd_start := ESP_OK } none).server_data ≠ none ∧
    file_server.start_file_server esp32_sdk (some "/spiffs".toList)
        { calloc_succeeds := true, httpd_start := ESP_OK }
        (file_server.start_file_server esp32_sdk (some "/spiffs".toList)
          { calloc_succeeds := true, httpd_start := ESP_OK } none).server_data =
      { server_data := (file_server.start_file_server esp32_sdk (some "/spiffs".toList)
          { calloc_succeeds := true, httpd_start := ESP_OK } none).server_data,
        calls := [ServerCall.log ServerLog.already_started],
        ret := ESP_ERR_INVALID_STATE } :=
  ⟨by decide,
    (single_instance_guard_is_in_start esp32_sdk (fw_req 300) (ok_env [])
      { calloc_succeeds := true, httpd_start := ESP_OK }
      (file_server.start_file_server esp32_sdk (some "/spiffs".toList)
        { calloc_succeeds := true, httpd_start := ESP_OK } none).server_data
      (by decide)).1⟩

/-- C15. In the write loop of `upload_post_handler` (both files), a receive that returns
`HTTPD_SOCK_ERR_TIMEOUT` consumes no quota: the pass makes the one `httpd_req_recv` call and
nothing else, so no `esp_ota_write`, and leaves every loop variable as it was
(`remaining`, `binary_file_length`, `image_header_was_checked`, `update_handle`); the loop
then goes on from the same state, and its next call is `httpd_req_recv` with the same
bound `MIN(remaining, SCRATCH_BUFSIZE)`, where `SCRATCH_BUFSIZE = 8192`. -/
theorem timeout_consumes_no_quota (sdk : Sdk) (env : Env) (st : LoopState) (r : RecvResult)
    (rs : List RecvResult) (hrem : 0 < st.remaining) (ht : r.ret = HTTPD_SOCK_ERR_TIMEOUT) :
    SCRATCH_BUFSIZE = 8192 ∧
    loop_body sdk env st r =
      Step.next [Call.httpd_req_recv (min st.remaining SCRATCH_BUFSIZE)] st ∧
    upload_loop sdk env (r :: rs) st =
      (Call.httpd_req_recv (min st.remaining SCRATCH_BUFSIZE) :: (upload_loop sdk env rs st).1,
        (upload_loop sdk env rs st).2) ∧
    ∃ tl, (upload_loop sdk env rs st).1 =
      Call.httpd_req_recv (min st.remaining SCRATCH_BUFSIZE) :: tl := by
  have hb : loop_body sdk env st r =
      Step.next [Call.httpd_req_recv (min st.remaining SCRATCH_BUFSIZE)] st := by
    unfold loop_body
    have hle : r.ret ≤ 0 := by rw [ht]; decide
    simp only
    rw [if_pos hle, if_pos ht]
  refine ⟨rfl, hb, ?_, upload_loop_head sdk env rs st hrem⟩
  rw [upload_loop_cons_next sdk env r rs st st _ hrem hb]
  rfl

/-- Witness of C15: 600 bytes declared, 300 received, then a timeout, then the rest. -/
theorem timeout_consumes_no_quota_witness :
    (0 : Int) < 300 ∧
    loop_body esp32_sdk (ok_env [])
        { remaining := 300, binary_file_length := 300, image_header_was_checked := true,
          update_handle := 1, err := 0, writes := 1 }
        { ret := HTTPD_SOCK_ERR_TIMEOUT, data := [] } =
      Step.next [Call.httpd_req_recv (min 300 SCRATCH_BUFSIZE)]
        { remaining := 300, binary_file_length := 300, image_header_was_checked := true,
          update_handle := 1, err := 0, writes := 1 } :=
  ⟨by decide,
    (timeout_consumes_no_quota esp32_sdk (ok_env [])
      { remaining := 300, binary_file_length := 300, image_header_was_checked := true,
        update_handle := 1, err := 0, writes := 1 }
      { ret := HTTPD_SOCK_ERR_TIMEOUT, data := [] } [chunk 300] (by decide) rfl).2.1⟩

/-- C16. The two `upload_post_handler`s are equal up to their closing action. For every
request and every environment, either both runs are the same run, ending blocked in
`httpd_req_recv` or with `ESP_FAIL` (same checks, same calls with the same arguments), or
both leave the loop after the same calls and make the same `esp_ota_end` and
`esp_ota_set_boot_partition` calls, after which `file_server.c` calls `esp_restart` and
`ota_server.c` sends the restart page and returns `ESP_OK`. -/
theorem handlers_equal_up_to_closing_call (sdk : Sdk) (req : Req) (env : Env) :
    (file_server.upload_post_handler sdk req env = ota_server.upload_post_handler sdk req env ∧
      ((file_server.upload_post_handler sdk req env).exit = Exit.blocked ∨
        (file_server.upload_post_handler sdk req env).exit = Exit.returned ESP_FAIL) ∧
      ∀ u, Call.esp_ota_end u ∉ (file_server.upload_post_handler sdk req env).calls) ∨
    (∃ cs, (∃ u, Call.esp_ota_end u ∈ cs) ∧
      Call.esp_ota_set_boot_partition env.update_partition ∈ cs ∧
      Call.esp_restart ∉ cs ∧ Call.http_board_restart_page ∉ cs ∧
      file_server.upload_post_handler sdk req env =
        { calls := cs ++ [Call.esp_restart], exit := Exit.restarted } ∧
      ota_server.upload_post_handler sdk req env =
        { calls := cs ++ [Call.http_board_restart_page], exit := Exit.returned ESP_OK }) := by
  have hb := upload_until_commit_before_commit sdk req env
  rcases file_server_shape sdk req env with ⟨s, hf1, hc1, he1⟩ | ⟨hn1, hc1, hx1⟩ <;>
    rcases ota_server_shape sdk req env with ⟨t, hf2, hc2, he2⟩ | ⟨hn2, hc2, hx2⟩
  · right
    have hst : s = t := by
      rw [hf1] at hf2
      exact LoopEnd.finished.inj hf2
    subst hst
    refine ⟨(upload_until_commit sdk req env).1 ++ commit_calls env s, ⟨s.update_handle, ?_⟩,
      ?_, ?_, ?_, ?_, ?_⟩
    · rw [commit_calls_eq]; simp
    · rw [commit_calls_eq]; simp
    · intro hm
      simp only [List.mem_append] at hm
      rcases hm with hm | hm
      · have := hb _ hm
        simp [Call.before_commit] at this
      · rcases mem_commit_calls env s _ hm with h | h | h | h | h <;> simp at h
    · intro hm
      simp only [List.mem_append] at hm
      rcases hm with hm | hm
      · have := hb _ hm
        simp [Call.before_commit] at this
      · rcases mem_commit_calls env s _ hm with h | h | h | h | h <;> simp at h
    · cases hfs : file_server.upload_post_handler sdk req env
      rw [hfs] at hc1 he1
      simp only at hc1 he1
      rw [hc1, he1]
    · cases hos : ota_server.upload_post_handler sdk req env
      rw [hos] at hc2 he2
      simp only at hc2 he2
      rw [hc2, he2]
  · exact absurd hf1 (hn2 s)
  · exact absurd hf2 (hn1 t)
  · left
    have hex : (file_server.upload_post_handler sdk req env).exit =
        (ota_server.upload_post_handler sdk req env).exit := by
      rcases hx1 with ⟨a1, b1⟩ | ⟨a1, b1⟩ <;> rcases hx2 with ⟨a2, b2⟩ | ⟨a2, b2⟩
      · rw [a1, a2]
      · rw [b1] at b2; simp at b2
      · rw [b1] at b2; simp at b2
      · rw [a1, a2]
    refine ⟨?_, ?_, ?_⟩
    · cases hfs : file_server.upload_post_handler sdk req env
      cases hos : ota_server.upload_post_handler sdk req env
      rw [hfs] at hc1 hex
      rw [hos] at hc2 hex
      simp only at hc1 hc2 hex
      rw [hc1, hc2, hex]
    · rcases hx1 with ⟨a1, -⟩ | ⟨a1, -⟩
      · exact Or.inl a1
      · exact Or.inr a1
    · intro u hu
      rw [hc1] at hu
      have := hb _ hu
      simp [Call.before_commit] at this

/-- C17. For every `base_path`, `uri` (C strings, so without NUL) and every destination
buffer of `destsize` bytes, with `pathlen` the index of the first `?` or `#` in `uri` (the
length of `uri` if there is none): `get_path_from_uri` returns NULL exactly when
`strlen(base_path) + pathlen + 1 > destsize`, and then leaves `dest` as it was; otherwise
`dest` starts with `base_path`, the first `pathlen` characters of `uri` and a NUL, which are
at most `destsize` bytes, the rest of the buffer is untouched, and the returned pointer is
`dest + strlen(base_path)`, where the string read is exactly those first `pathlen`
characters of `uri`. -/
theorem get_path_from_uri_spec (dest base_path uri : List Char) (destsize : Nat)
    (hdest : dest.length = destsize)
    (hbase : '\x00' ∉ base_path) (huri : '\x00' ∉ uri) :
    ((get_path_from_uri dest base_path uri destsize).path = none ↔
      base_path.length + spec_pathlen uri + 1 > destsize) ∧
    (base_path.length + spec_pathlen uri + 1 > destsize →
      (get_path_from_uri dest base_path uri destsize).dest = dest) ∧
    (base_path.length + spec_pathlen uri + 1 ≤ destsize →
      (get_path_from_uri dest base_path uri destsize).path = some base_path.length ∧
      (get_path_from_uri dest base_path uri destsize).dest =
        base_path ++ uri.take (spec_pathlen uri) ++ ['\x00'] ++
          dest.drop (base_path.length + spec_pathlen uri + 1) ∧
      (get_path_from_uri dest base_path uri destsize).dest.length = destsize ∧
      cstr (get_path_from_uri dest base_path uri destsize).dest 0 =
        base_path ++ uri.take (spec_pathlen uri) ∧
      cstr (get_path_from_uri dest base_path uri destsize).dest base_path.length =
        uri.take (spec_pathlen uri)) := by
  rw [get_path_from_uri_eq, code_pathlen_eq_spec]
  have hle := spec_pathlen_le uri
  have hlen : (uri.take (spec_pathlen uri)).length = spec_pathlen uri := by
    rw [List.length_take]
    omega
  have hpath : '\x00' ∉ uri.take (spec_pathlen uri) :=
    fun hm => huri (List.mem_of_mem_take hm)
  have hst := store_twice dest base_path (uri.take (spec_pathlen uri))
  rw [hlen] at hst
  by_cases hbig : base_path.length + spec_pathlen uri + 1 > destsize
  · rw [if_pos hbig]
    exact ⟨⟨fun _ => hbig, fun _ => rfl⟩, fun _ => rfl, fun hcontra => by omega⟩
  · rw [if_neg hbig, hst]
    refine ⟨⟨fun h => by simp at h, fun h => absurd h hbig⟩, fun h => absurd h hbig,
      fun hfit => ⟨rfl, rfl, ?_, ?_, ?_⟩⟩
    · simp only [List.length_append, List.length_drop, hlen, List.length_singleton]
      omega
    · unfold cstr
      rw [List.drop_zero, List.append_assoc, List.singleton_append]
      apply takeWhile_not_nul
      intro hm
      rcases List.mem_append.mp hm with h | h
      · exact hbase h
      · exact hpath h
    · unfold cstr
      rw [List.append_assoc, List.append_assoc, List.drop_left', List.singleton_append]
      · exact takeWhile_not_nul _ _ hpath
      · rfl

/-- Witness of C17: the path of `/fw.bin?x=1` under `/spiffs` in a 47-byte buffer. -/
theorem get_path_from_uri_spec_witness :
    (List.replicate 47 'z').length = 47 ∧
    cstr (get_path_from_uri (List.replicate 47 'z') "/spiffs".toList "/fw.bin?x=1".toList
      47).dest 7 = "/fw.bin?x=1".toList.take (spec_pathlen "/fw.bin?x=1".toList) :=
  ⟨by decide,
    ((get_path_from_uri_spec (List.replicate 47 'z') "/spiffs".toList "/fw.bin?x=1".toList 47
      (by decide) (by decide) (by decide)).2.2 (by decide)).2.2.2.2⟩

/-- C11, the code at the boundary. With the ESP32 sizes the header window is 288 bytes, and
a chunk of exactly 288 bytes holds the whole 256-byte descriptor at offset 32. The header
check nevertheless logs `received package is not fit len` and changes nothing, because
the comparison is `data_read > 288`: in general the line is logged exactly when
`data_read` is at most the window. Both handlers then write the chunk with
`update_handle` 0 and never call `esp_ota_begin`. A chunk of 289 bytes is examined. -/
theorem header_check_rejects_exact_window :
    esp32_sdk.header_window = 288 ∧
    (new_app_info esp32_sdk (chunk 288).data).length = esp32_sdk.sizeof_esp_app_desc_t ∧
    header_check esp32_sdk (ok_env []) (loop_entry (fw_req 288)) (chunk 288) =
      ([Call.log Log.not_fit_len], loop_entry (fw_req 288)) ∧
    (header_check esp32_sdk (ok_env []) (loop_entry (fw_req 289)) (chunk 289)).1 =
      [Call.esp_ota_begin 2] ∧
    (∀ (sdk : Sdk) (env : Env) (st : LoopState) (r : RecvResult),
      (header_check sdk env { st with image_header_was_checked := false } r).1 =
        [Call.log Log.not_fit_len] ↔ r.ret ≤ (sdk.header_window : Int)) ∧
    file_server.upload_post_handler esp32_sdk (fw_req 288) (ok_env [chunk 288]) =
      { calls := [Call.httpd_req_recv 288, Call.log Log.not_fit_len,
          Call.esp_ota_write 0 (List.replicate 288 0) 288, Call.log (Log.total_written 288),
          Call.esp_ota_end 0, Call.esp_ota_set_boot_partition 2, Call.esp_restart],
        exit := Exit.restarted } ∧
    ota_server.upload_post_handler esp32_sdk (fw_req 288) (ok_env [chunk 288]) =
      { calls := [Call.httpd_req_recv 288, Call.log Log.not_fit_len,
          Call.esp_ota_write 0 (List.replicate 288 0) 288, Call.log (Log.total_written 288),
          Call.esp_ota_end 0, Call.esp_ota_set_boot_partition 2,
          Call.http_board_restart_page],
        exit := Exit.returned ESP_OK } := by
  refine ⟨by decide, by decide, by decide, by decide, ?_, by decide, by decide⟩
  intro sdk env st r
  by_cases hw : r.ret ≤ (sdk.header_window : Int)
  · rw [header_check_short sdk env _ r rfl hw]
    exact ⟨fun _ => hw, fun _ => rfl⟩
  · rw [header_check_long sdk env _ r rfl (by omega)]
    refine ⟨fun h => ?_, fun h => absurd h hw⟩
    have hm : Call.esp_ota_begin env.update_partition ∈ [Call.log Log.not_fit_len] := by
      rw [← h]; simp
    simp at hm

/-- Counterexample to C12: 400 bytes are declared, the first chunk has 100 bytes and the
second 300. The first chunk is reported `not fit len`; the second chunk is then examined
as if it were the head of the image: its bytes at the descriptor offset are compared with
the running and the last invalid version (both warnings are logged) and `esp_ota_begin` is
called. -/
theorem later_chunk_examined :
    file_server.upload_post_handler esp32_sdk (fw_req 400)
        (same_version_env [chunk 100, chunk 300]) =
      { calls := [Call.httpd_req_recv 400, Call.log Log.not_fit_len,
          Call.esp_ota_write 0 (List.replicate 100 0) 100,
          Call.httpd_req_recv 300, Call.log Log.same_as_invalid_version,
          Call.log Log.same_as_running_version, Call.esp_ota_begin 2,
          Call.esp_ota_write 1 (List.replicate 300 0) 300, Call.log (Log.total_written 400),
          Call.esp_ota_end 1, Call.esp_ota_set_boot_partition 2, Call.esp_restart],
        exit := Exit.restarted } ∧
    ota_server.upload_post_handler esp32_sdk (fw_req 400)
        (same_version_env [chunk 100, chunk 300]) =
      { calls := [Call.httpd_req_recv 400, Call.log Log.not_fit_len,
          Call.esp_ota_write 0 (List.replicate 100 0) 100,
          Call.httpd_req_recv 300, Call.log Log.same_as_invalid_version,
          Call.log Log.same_as_running_version, Call.esp_ota_begin 2,
          Call.esp_ota_write 1 (List.replicate 300 0) 300, Call.log (Log.total_written 400),
          Call.esp_ota_end 1, Call.esp_ota_set_boot_partition 2,
          Call.http_board_restart_page],
        exit := Exit.returned ESP_OK } := by
  decide

/-- C12, amended. Header extraction and the version comparisons run at most once per
session, on the first received chunk that is longer than the header window. While
`image_header_was_checked` is unset, a chunk shorter than the window is reported
`not fit len` and leaves the flag unset, so the next chunk is examined again; a chunk
longer than the window is compared, followed by `esp_ota_begin`, and sets the flag. Once the flag is set no
chunk is examined: in a run of either handler no `not fit len` line, no version warning
and no second `esp_ota_begin` comes after `esp_ota_begin`. -/
theorem header_examined_until_first_fit (sdk : Sdk) (req : Req) (env : Env) (st : LoopState)
    (r : RecvResult) :
    (st.image_header_was_checked = true → header_check sdk env st r = ([], st)) ∧
    (st.image_header_was_checked = false → r.ret < (sdk.header_window : Int) →
      header_check sdk env st r = ([Call.log Log.not_fit_len], st)) ∧
    (st.image_header_was_checked = false → (sdk.header_window : Int) < r.ret →
      (header_check sdk env st r).1 =
        version_check sdk env r.data ++ [Call.esp_ota_begin env.update_partition] ++
          (if env.esp_ota_begin.1 ≠ ESP_OK then [Call.log Log.esp_ota_begin_failed] else []) ∧
      (header_check sdk env st r).2.image_header_was_checked = true) ∧
    (∀ o, o = file_server.upload_post_handler sdk req env ∨
        o = ota_server.upload_post_handler sdk req env →
      ∀ pre post p, o.calls = pre ++ Call.esp_ota_begin p :: post →
        ∀ c ∈ post, c.examines_header = false) := by
  refine ⟨header_check_checked sdk env st r,
    fun hf hw => header_check_short sdk env st r hf (le_of_lt hw), ?_, ?_⟩
  · intro hf hw
    rw [header_check_long sdk env st r hf hw]
    exact ⟨rfl, rfl⟩
  · intro o ho
    rcases ho with rfl | rfl
    · exact shape_after_begin sdk req env _ _ _ (file_server_shape sdk req env) (Or.inl rfl)
    · exact shape_after_begin sdk req env _ _ _ (ota_server_shape sdk req env) (Or.inr rfl)

/-- Witness of C12, amended: the first chunk of 100 bytes of a 400-byte upload. -/
theorem header_examined_until_first_fit_witness :
    (loop_entry (fw_req 400)).image_header_was_checked = false ∧
    (chunk 100).ret < (esp32_sdk.header_window : Int) ∧
    header_check esp32_sdk (ok_env [chunk 100, chunk 300]) (loop_entry (fw_req 400))
        (chunk 100) =
      ([Call.log Log.not_fit_len], loop_entry (fw_req 400)) :=
  ⟨by decide, by decide,
    (header_examined_until_first_fit esp32_sdk (fw_req 400) (ok_env [chunk 100, chunk 300])
      (loop_entry (fw_req 400)) (chunk 100)).2.1 (by decide) (by decide)⟩

/-- C13, the code at the failing input: a 300-byte image is uploaded once as a single chunk
and once in chunks of 17 bytes (seventeen of them and one of 11), every OTA call
succeeding and `esp_ota_begin` handing out handle 1. With the single chunk the 300 bytes
are written on handle 1. With the 17-byte chunks no chunk is longer than the 288-byte
header window, so `esp_ota_begin` is never called: all 300 bytes are passed to
`esp_ota_write` on handle 0 and nothing is written on handle 1. The same holds for both
handlers. -/
theorem chunk_boundaries_change_written_bytes :
    [List.replicate 300 0].flatten = List.replicate 300 0 ∧
    (List.replicate 17 (List.replicate 17 0) ++ [List.replicate 11 0]).flatten =
      List.replicate 300 0 ∧
    written_to 1 (file_server.upload_post_handler esp32_sdk (fw_req 300)
      (ok_env (deliver [List.replicate 300 0]))).calls = List.replicate 300 0 ∧
    written_to 1 (file_server.upload_post_handler esp32_sdk (fw_req 300)
      (ok_env (deliver (List.replicate 17 (List.replicate 17 0) ++
        [List.replicate 11 0])))).calls = [] ∧
    written_to 0 (file_server.upload_post_handler esp32_sdk (fw_req 300)
      (ok_env (deliver (List.replicate 17 (List.replicate 17 0) ++
        [List.replicate 11 0])))).calls = List.replicate 300 0 ∧
    (file_server.upload_post_handler esp32_sdk (fw_req 300)
      (ok_env (deliver (List.replicate 17 (List.replicate 17 0) ++
        [List.replicate 11 0])))).calls.filter Call.is_begin = [] ∧
    (file_server.upload_post_handler esp32_sdk (fw_req 300)
      (ok_env (deliver (List.replicate 17 (List.replicate 17 0) ++
        [List.replicate 11 0])))).exit = Exit.restarted ∧
    written_to 1 (ota_server.upload_post_handler esp32_sdk (fw_req 300)
      (ok_env (deliver [List.replicate 300 0]))).calls = List.replicate 300 0 ∧
    written_to 1 (ota_server.upload_post_handler esp32_sdk (fw_req 300)
      (ok_env (deliver (List.replicate 17 (List.replicate 17 0) ++
        [List.replicate 11 0])))).calls = [] ∧
    (ota_server.upload_post_handler esp32_sdk (fw_req 300)
      (ok_env (deliver (List.replicate 17 (List.replicate 17 0) ++
        [List.replicate 11 0])))).calls.filter Call.is_begin = [] ∧
    (ota_server.upload_post_handler esp32_sdk (fw_req 300)
      (ok_env (deliver (List.replicate 17 (List.replicate 17 0) ++
        [List.replicate 11 0])))).exit = Exit.returned ESP_OK := by
  decide

/-- C14, the code at the failing input: 100 bytes are declared and arrive in one chunk,
which is shorter than the 288-byte header window. Both handlers reach the calls after the
loop with `binary_file_length = 100`, but the write handle is never opened: there is no
`esp_ota_begin`, and `esp_ota_write` and `esp_ota_end` are called with `update_handle` 0. -/
theorem short_upload_never_opens_handle :
    file_server.upload_post_handler esp32_sdk (fw_req 100) (ok_env [chunk 100]) =
      { calls := [Call.httpd_req_recv 100, Call.log Log.not_fit_len,
          Call.esp_ota_write 0 (List.replicate 100 0) 100, Call.log (Log.total_written 100),
          Call.esp_ota_end 0, Call.esp_ota_set_boot_partition 2, Call.esp_restart],
        exit := Exit.restarted } ∧
    ota_server.upload_post_handler esp32_sdk (fw_req 100) (ok_env [chunk 100]) =
      { calls := [Call.httpd_req_recv 100, Call.log Log.not_fit_len,
          Call.esp_ota_write 0 (List.replicate 100 0) 100, Call.log (Log.total_written 100),
          Call.esp_ota_end 0, Call.esp_ota_set_boot_partition 2,
          Call.http_board_restart_page],
        exit := Exit.returned ESP_OK } := by
  decide

end OtaWebupdate
